import Mathlib

/-!
Botan: ASN.1 string values and elliptic-curve key serialization.

A shallow embedding of `src/lib/asn1/asn1_str.cpp`,
`src/pubkey/ecc_key/ecc_key.cpp` and `doc/examples/factor.cpp`, followed by
theorems about it.

Conventions of the embedding:

* a `std::string` and a byte buffer are both `List byte`;
* a C++ exception is a value of `ErrorKind`;
* a constructor that may throw returns `Except ErrorKind _` (no object exists
  after a throwing constructor);
* a member function that mutates `*this` and may throw returns an `Outcome`:
  the object as the call leaves it, together with the exception that escaped,
  if any;
* a loop without a bound of its own takes `fuel` and yields `none` when the
  fuel runs out.
-/

namespace Botan

/-- One octet, the `uint8_t` / `byte` of the sources. -/
abbrev byte := Fin 256

/-- The exception classes thrown by the embedded code. -/
inductive ErrorKind where
  | Invalid_Argument
  | Invalid_State
  | Decoding_Error
  | Internal_Error
  | Illegal_Point
  deriving DecidableEq, Repr

/-- The result of a mutating member function: the object after the call and
the exception that escaped from it (`none` when the call returned). -/
structure Outcome (σ : Type) where
  state : σ
  thrown : Option ErrorKind
  deriving DecidableEq, Repr

/-! ## Tags -/

/-- Modelled from the spec: the `ASN1_Tag` enumeration of `asn1_obj.h` (the
header is not part of the excerpt). A tag is an unsigned integer; the
constants below carry the universal tag numbers of the standard. -/
abbrev ASN1_Tag := Nat

/-- Modelled from the spec: tag class UNIVERSAL of `asn1_obj.h`. -/
def UNIVERSAL : ASN1_Tag := 0x00
/-- Modelled from the spec: tag class APPLICATION of `asn1_obj.h`. -/
def APPLICATION : ASN1_Tag := 0x40
/-- Modelled from the spec: tag class CONTEXT_SPECIFIC of `asn1_obj.h`. -/
def CONTEXT_SPECIFIC : ASN1_Tag := 0x80
/-- Modelled from the spec: the CONSTRUCTED bit of `asn1_obj.h`. -/
def CONSTRUCTED : ASN1_Tag := 0x20
/-- Modelled from the spec: type tag INTEGER of `asn1_obj.h`. -/
def INTEGER : ASN1_Tag := 0x02
/-- Modelled from the spec: type tag OCTET_STRING of `asn1_obj.h`. -/
def OCTET_STRING : ASN1_Tag := 0x04
/-- Modelled from the spec: type tag SEQUENCE of `asn1_obj.h`. -/
def SEQUENCE : ASN1_Tag := 0x10
/-- Modelled from the spec: type tag UTF8_STRING of `asn1_obj.h`. -/
def UTF8_STRING : ASN1_Tag := 0x0C
/-- Modelled from the spec: type tag NUMERIC_STRING of `asn1_obj.h`. -/
def NUMERIC_STRING : ASN1_Tag := 0x12
/-- Modelled from the spec: type tag PRINTABLE_STRING of `asn1_obj.h`. -/
def PRINTABLE_STRING : ASN1_Tag := 0x13
/-- Modelled from the spec: type tag T61_STRING of `asn1_obj.h`. -/
def T61_STRING : ASN1_Tag := 0x14
/-- Modelled from the spec: type tag IA5_STRING of `asn1_obj.h`. -/
def IA5_STRING : ASN1_Tag := 0x16
/-- Modelled from the spec: type tag VISIBLE_STRING of `asn1_obj.h`. -/
def VISIBLE_STRING : ASN1_Tag := 0x1A
/-- Modelled from the spec: type tag UNIVERSAL_STRING of `asn1_obj.h`. -/
def UNIVERSAL_STRING : ASN1_Tag := 0x1C
/-- Modelled from the spec: type tag BMP_STRING of `asn1_obj.h`. -/
def BMP_STRING : ASN1_Tag := 0x1E
/-- Modelled from the spec: the "no object" marker of `asn1_obj.h`. -/
def NO_OBJECT : ASN1_Tag := 0xFF00
/-- Modelled from the spec: the "choose for me" sentinel of `asn1_obj.h`. -/
def DIRECTORY_STRING : ASN1_Tag := 0xFF01

/-- The eight recognized string tags, in the order of `assert_is_string_type`. -/
def string_tags : List ASN1_Tag :=
  [NUMERIC_STRING, PRINTABLE_STRING, VISIBLE_STRING, T61_STRING,
   IA5_STRING, UTF8_STRING, BMP_STRING, UNIVERSAL_STRING]

/-! ## asn1_str.cpp -/

/-- The table `IS_PRINTABLE[256]` of `choose_encoding`, row by row as in the
source (twelve entries per row, four in the last). -/
def IS_PRINTABLE : List Nat := [
  0x00, 0x00, 0x00, 0x00, 0x00, 0x00, 0x00, 0x00, 0x00, 0x00, 0x00, 0x00,
  0x00, 0x00, 0x00, 0x00, 0x00, 0x00, 0x00, 0x00, 0x00, 0x00, 0x00, 0x00,
  0x00, 0x00, 0x00, 0x00, 0x00, 0x00, 0x00, 0x00, 0x01, 0x00, 0x00, 0x00,
  0x00, 0x00, 0x00, 0x00, 0x01, 0x01, 0x00, 0x01, 0x01, 0x01, 0x01, 0x01,
  0x01, 0x01, 0x01, 0x01, 0x01, 0x01, 0x01, 0x01, 0x01, 0x01, 0x01, 0x00,
  0x00, 0x01, 0x00, 0x01, 0x00, 0x01, 0x01, 0x01, 0x01, 0x01, 0x01, 0x01,
  0x01, 0x01, 0x01, 0x01, 0x01, 0x01, 0x01, 0x01, 0x01, 0x01, 0x01, 0x01,
  0x01, 0x01, 0x01, 0x01, 0x01, 0x01, 0x01, 0x00, 0x00, 0x00, 0x00, 0x00,
  0x00, 0x01, 0x01, 0x01, 0x01, 0x01, 0x01, 0x01, 0x01, 0x01, 0x01, 0x01,
  0x01, 0x01, 0x01, 0x01, 0x01, 0x01, 0x01, 0x01, 0x01, 0x01, 0x01, 0x01,
  0x01, 0x01, 0x01, 0x00, 0x00, 0x00, 0x00, 0x00, 0x00, 0x00, 0x00, 0x00,
  0x00, 0x00, 0x00, 0x00, 0x00, 0x00, 0x00, 0x00, 0x00, 0x00, 0x00, 0x00,
  0x00, 0x00, 0x00, 0x00, 0x00, 0x00, 0x00, 0x00, 0x00, 0x00, 0x00, 0x00,
  0x00, 0x00, 0x00, 0x00, 0x00, 0x00, 0x00, 0x00, 0x00, 0x00, 0x00, 0x00,
  0x00, 0x00, 0x00, 0x00, 0x00, 0x00, 0x00, 0x00, 0x00, 0x00, 0x00, 0x00,
  0x00, 0x00, 0x00, 0x00, 0x00, 0x00, 0x00, 0x00, 0x00, 0x00, 0x00, 0x00,
  0x00, 0x00, 0x00, 0x00, 0x00, 0x00, 0x00, 0x00, 0x00, 0x00, 0x00, 0x00,
  0x00, 0x00, 0x00, 0x00, 0x00, 0x00, 0x00, 0x00, 0x00, 0x00, 0x00, 0x00,
  0x00, 0x00, 0x00, 0x00, 0x00, 0x00, 0x00, 0x00, 0x00, 0x00, 0x00, 0x00,
  0x00, 0x00, 0x00, 0x00, 0x00, 0x00, 0x00, 0x00, 0x00, 0x00, 0x00, 0x00,
  0x00, 0x00, 0x00, 0x00, 0x00, 0x00, 0x00, 0x00, 0x00, 0x00, 0x00, 0x00,
  0x00, 0x00, 0x00, 0x00 ]

/-- The test `!IS_PRINTABLE[static_cast<uint8_t>(str[i])]` of the loop body. -/
def not_printable (c : byte) : Bool :=
  IS_PRINTABLE.getD c.val 0 == 0

/-- The function `choose_encoding`: the loop returns UTF8_STRING at the first
byte whose table entry is zero, and PRINTABLE_STRING when it runs off the end. -/
def choose_encoding : List byte → ASN1_Tag
  | [] => PRINTABLE_STRING
  | c :: rest => if not_printable c then UTF8_STRING else choose_encoding rest

/-- The function `assert_is_string_type`: throws Invalid_Argument unless the
tag is one of the eight string tags. -/
def assert_is_string_type (tag : ASN1_Tag) : Except ErrorKind Unit :=
  if tag ≠ NUMERIC_STRING ∧
     tag ≠ PRINTABLE_STRING ∧
     tag ≠ VISIBLE_STRING ∧
     tag ≠ T61_STRING ∧
     tag ≠ IA5_STRING ∧
     tag ≠ UTF8_STRING ∧
     tag ≠ BMP_STRING ∧
     tag ≠ UNIVERSAL_STRING then
    .error .Invalid_Argument
  else
    .ok ()

/-- The data members of `ASN1_String`: the canonical text `m_utf8_str`, the
retained raw bytes `m_data` and the tag `m_tag`. -/
structure ASN1_String where
  m_utf8_str : List byte
  m_data : List byte
  m_tag : ASN1_Tag
  deriving DecidableEq, Repr

/-- The accessor `ASN1_String::tagging`. -/
def ASN1_String.tagging (self : ASN1_String) : ASN1_Tag := self.m_tag

/-- The constructor `ASN1_String(const std::string&, ASN1_Tag)`. -/
def ASN1_String.create (str : List byte) (t : ASN1_Tag) : Except ErrorKind ASN1_String :=
  let m_tag := if t = DIRECTORY_STRING then choose_encoding str else t
  match assert_is_string_type m_tag with
  | .error e => .error e
  | .ok () => .ok { m_utf8_str := str, m_data := [], m_tag := m_tag }

/-- The constructor `ASN1_String(const std::string&)`. -/
def ASN1_String.create_auto (str : List byte) : ASN1_String :=
  { m_utf8_str := str, m_data := [], m_tag := choose_encoding str }

/-- Modelled from the spec: `BER_Object` of `asn1_obj.h`, the decoded unit
{tag, class, raw value bytes} that `BER_Decoder::get_next_object` returns. -/
structure BER_Object where
  type_tag : ASN1_Tag
  class_tag : ASN1_Tag
  value : List byte
  deriving DecidableEq, Repr

/-- Modelled from the spec: `DER_Encoder` of `der_enc.h`, seen as the sequence
of objects {tag, class, value bytes} handed to it so far. -/
abbrev DER_Encoder := List BER_Object

/-- Modelled from the spec: `DER_Encoder::add_object`, which wraps the given
value bytes under the given tag and class and appends the object. -/
def DER_Encoder.add_object (encoder : DER_Encoder) (type_tag class_tag : ASN1_Tag)
    (rep : List byte) : DER_Encoder :=
  encoder ++ [{ type_tag := type_tag, class_tag := class_tag, value := rep }]

/-- Modelled from the spec: the UTF-8 bytes that `charset.cpp` appends for one
code point; surrogates and values above 0x10FFFF are a Decoding_Error. -/
def append_utf8_for (c : Nat) : Except ErrorKind (List byte) :=
  if 0xD800 ≤ c ∧ c < 0xE000 then .error .Decoding_Error
  else if c ≤ 0x7F then .ok [Fin.ofNat c]
  else if c ≤ 0x7FF then
    .ok [Fin.ofNat (0xC0 + c / 64), Fin.ofNat (0x80 + c % 64)]
  else if c ≤ 0xFFFF then
    .ok [Fin.ofNat (0xE0 + c / 4096), Fin.ofNat (0x80 + c / 64 % 64),
         Fin.ofNat (0x80 + c % 64)]
  else if c ≤ 0x10FFFF then
    .ok [Fin.ofNat (0xF0 + c / 262144), Fin.ofNat (0x80 + c / 4096 % 64),
         Fin.ofNat (0x80 + c / 64 % 64), Fin.ofNat (0x80 + c % 64)]
  else .error .Decoding_Error

/-- Modelled from the spec: `ucs2_to_utf8` of `charset.h` (2-byte-unit text):
big-endian 16-bit units, each transcoded to UTF-8; a trailing odd byte is a
Decoding_Error. -/
def ucs2_to_utf8 : List byte → Except ErrorKind (List byte)
  | [] => .ok []
  | [_] => .error .Decoding_Error
  | hi :: lo :: rest =>
    match append_utf8_for (hi.val * 256 + lo.val) with
    | .error e => .error e
    | .ok u =>
      match ucs2_to_utf8 rest with
      | .error e => .error e
      | .ok s => .ok (u ++ s)

/-- Modelled from the spec: `ucs4_to_utf8` of `charset.h` (4-byte-unit text):
big-endian 32-bit units, each transcoded to UTF-8; a length that is not a
multiple of four is a Decoding_Error. -/
def ucs4_to_utf8 : List byte → Except ErrorKind (List byte)
  | [] => .ok []
  | b0 :: b1 :: b2 :: b3 :: rest =>
    match append_utf8_for (((b0.val * 256 + b1.val) * 256 + b2.val) * 256 + b3.val) with
    | .error e => .error e
    | .ok u =>
      match ucs4_to_utf8 rest with
      | .error e => .error e
      | .ok s => .ok (u ++ s)
  | _ => .error .Decoding_Error

/-- Modelled from the spec: `ASN1::to_string` of `asn1_obj.h` (direct
byte-to-text): the value bytes of the object, taken as text. -/
def ASN1.to_string (obj : BER_Object) : List byte := obj.value

/-- The member `ASN1_String::encode_into`. -/
def ASN1_String.encode_into (self : ASN1_String) (encoder : DER_Encoder) : DER_Encoder :=
  if self.m_data.isEmpty then
    encoder.add_object self.tagging UNIVERSAL self.m_utf8_str
  else
    encoder.add_object self.tagging UNIVERSAL self.m_data

/-- The member `ASN1_String::decode_from`, applied to the object `obj` that
`source.get_next_object()` returned. The assignments to `m_tag` and `m_data`
precede the transcoding calls, so they persist when one of those throws. -/
def ASN1_String.decode_from (self : ASN1_String) (obj : BER_Object) : Outcome ASN1_String :=
  match assert_is_string_type obj.type_tag with
  | .error e => { state := self, thrown := some e }
  | .ok () =>
    let s1 : ASN1_String := { self with m_tag := obj.type_tag, m_data := obj.value }
    if s1.m_tag = BMP_STRING then
      match ucs2_to_utf8 s1.m_data with
      | .error e => { state := s1, thrown := some e }
      | .ok t => { state := { s1 with m_utf8_str := t }, thrown := none }
    else if s1.m_tag = UNIVERSAL_STRING then
      match ucs4_to_utf8 s1.m_data with
      | .error e => { state := s1, thrown := some e }
      | .ok t => { state := { s1 with m_utf8_str := t }, thrown := none }
    else
      { state := { s1 with m_utf8_str := ASN1.to_string obj }, thrown := none }

/-! ## Big integers and the byte-level codec used by the key hooks -/

/-- Modelled from the spec: `BigInt` of `bigint.h`, a signed integer of
arbitrary precision. -/
abbrev BigInt := Int

/-- Counts the base-256 digits of `n`; `fuel` bounds the number of steps. -/
def significant_bytes_fuel : Nat → Nat → Nat
  | 0, _ => 0
  | fuel + 1, n => if n = 0 then 0 else significant_bytes_fuel fuel (n / 256) + 1

/-- Modelled from the spec: the number of significant bytes of a magnitude
(zero has none). -/
def significant_bytes (n : Nat) : Nat := significant_bytes_fuel n n

/-- Modelled from the spec: `BigInt::bytes`, the byte length of the magnitude. -/
def BigInt.bytes (n : BigInt) : Nat := significant_bytes n.natAbs

/-- The big-endian representation of `n` in exactly `width` bytes (the low
`width` bytes of `n`, most significant first). -/
def be_fixed : Nat → Nat → List byte
  | 0, _ => []
  | width + 1, n => be_fixed width (n / 256) ++ [Fin.ofNat (n % 256)]

/-- The number that a big-endian byte string denotes. -/
def be_decode (bs : List byte) : Nat :=
  bs.foldl (fun acc b => acc * 256 + b.val) 0

/-- Modelled from the spec: `BigInt::encode_1363`, the magnitude as a
fixed-width big-endian byte string of `bytes` bytes. -/
def BigInt.encode_1363 (n : BigInt) (bytes : Nat) : List byte :=
  be_fixed bytes n.natAbs

/-- Modelled from the spec: `BigInt::decode` (binary), the non-negative integer
that a big-endian byte string denotes. -/
def BigInt.decode (buf : List byte) : BigInt := (be_decode buf : Nat)

/-- Modelled from the spec: the DER length octets: the short form up to 127,
otherwise the long form (count of length bytes, then the length big-endian). -/
def encode_length (length : Nat) : List byte :=
  if length ≤ 127 then [Fin.ofNat length]
  else Fin.ofNat (0x80 + significant_bytes length) ::
         be_fixed (significant_bytes length) length

/-- Modelled from the spec: the DER identifier octet of a tag number below 31
under the given class bits. -/
def encode_tag (type_tag class_tag : ASN1_Tag) : byte :=
  Fin.ofNat (type_tag ||| class_tag)

/-- Modelled from the spec: the structural TLV wrapping (tag, length, value
bytes) done by `DER_Encoder`. -/
def der_object (type_tag class_tag : ASN1_Tag) (contents : List byte) : List byte :=
  encode_tag type_tag class_tag :: (encode_length contents.length ++ contents)

/-- Modelled from the spec: the content octets of a DER INTEGER holding a
non-negative value: minimal big-endian, with a leading zero byte when the top
bit would otherwise be set. -/
def der_integer_contents (n : Nat) : List byte :=
  if n = 0 then [0]
  else if 128 ≤ n / 256 ^ (significant_bytes n - 1) then
    0 :: be_fixed (significant_bytes n) n
  else be_fixed (significant_bytes n) n

/-- Modelled from the spec: the length octets as `BER_Decoder` reads them, for
definite lengths of at most four length bytes; the indefinite form (0x80) is
outside the model and is reported as a Decoding_Error. Returns the length and
the bytes that follow the length field. -/
def decode_length : List byte → Except ErrorKind (Nat × List byte)
  | [] => .error .Decoding_Error
  | b :: rest =>
    if b.val < 128 then .ok (b.val, rest)
    else if b.val - 128 = 0 then .error .Decoding_Error
    else if 4 < b.val - 128 then .error .Decoding_Error
    else if rest.length < b.val - 128 then .error .Decoding_Error
    else .ok (be_decode (rest.take (b.val - 128)), rest.drop (b.val - 128))

/-- Modelled from the spec: `BER_Decoder::get_next_object` on a byte source:
reads one TLV object and returns it with the bytes that follow it. At the end
of the data the object carries the NO_OBJECT marker. Identifier octets in the
long form (tag numbers of 31 and more) are outside the model and are reported
as a Decoding_Error. -/
def get_next_object : List byte → Except ErrorKind (BER_Object × List byte)
  | [] => .ok ({ type_tag := NO_OBJECT, class_tag := NO_OBJECT, value := [] }, [])
  | b :: rest =>
    if b.val % 32 = 31 then .error .Decoding_Error
    else
      match decode_length rest with
      | .error e => .error e
      | .ok (length, rest2) =>
        if rest2.length < length then .error .Decoding_Error
        else .ok ({ type_tag := b.val % 32, class_tag := b.val / 32 * 32,
                    value := rest2.take length }, rest2.drop length)

/-- Modelled from the spec: `BER_Decoder::decode(u32bit&)` on the content
octets of an INTEGER: the value, when it is non-negative and fits 32 bits. -/
def decode_u32bit (value : List byte) : Except ErrorKind Nat :=
  match value with
  | [] => .ok 0
  | b :: _ =>
    if 128 ≤ b.val then .error .Decoding_Error
    else if 2 ^ 32 ≤ be_decode value then .error .Decoding_Error
    else .ok (be_decode value)

/-- The decoder chain of `EC_Key_Decoder::key_bits` (PKCS #8):
`BER_Decoder(bits).start_cons(SEQUENCE).decode(version)
 .decode(octstr_secret, OCTET_STRING).verify_end().end_cons()`.
Returns `(version, octstr_secret)`. -/
def decode_private_key_bits (bits : List byte) : Except ErrorKind (Nat × List byte) :=
  match get_next_object bits with
  | .error e => .error e
  | .ok (seq, _) =>
    if ¬ (seq.type_tag = SEQUENCE ∧ seq.class_tag = (UNIVERSAL ||| CONSTRUCTED)) then
      .error .Decoding_Error
    else
      match get_next_object seq.value with
      | .error e => .error e
      | .ok (vobj, rest1) =>
        if ¬ (vobj.type_tag = INTEGER ∧ vobj.class_tag = UNIVERSAL) then
          .error .Decoding_Error
        else
          match decode_u32bit vobj.value with
          | .error e => .error e
          | .ok version =>
            match get_next_object rest1 with
            | .error e => .error e
            | .ok (oobj, rest2) =>
              if ¬ (oobj.type_tag = OCTET_STRING ∧ oobj.class_tag = UNIVERSAL) then
                .error .Decoding_Error
              else if rest2 ≠ [] then .error .Decoding_Error
              else .ok (version, oobj.value)

/-! ## ecc_key.cpp -/

/-- Modelled from the spec: `CurveGFp` of `curve_gfp.h`, the curve equation
`y^2 = x^3 + a x + b` over the field of `p` elements. -/
structure CurveGFp where
  p : BigInt
  a : BigInt
  b : BigInt
  deriving DecidableEq, Repr

/-- Modelled from the spec: `PointGFp` of `point_gfp.h`, a point that belongs
to one curve: affine coordinates, or `none` for the point at infinity. -/
structure PointGFp where
  curve : CurveGFp
  coords : Option (BigInt × BigInt)
  deriving DecidableEq, Repr

/-- Modelled from the spec: `EC_Domain_Params` of `ec_dompar.h`: curve, base
point, order, and the object identifier (empty when not registered). -/
structure EC_Domain_Params where
  curve : CurveGFp
  base_point : PointGFp
  order : BigInt
  oid : String
  deriving DecidableEq, Repr

/-- Modelled from the spec: `EC_Domain_Params_Encoding` of `ec_dompar.h`; a
C++ enumeration object may hold any integer, which is why
`set_parameter_encoding` checks it. -/
abbrev EC_Domain_Params_Encoding := Nat

/-- Modelled from the spec: enumerator EC_DOMPAR_ENC_EXPLICIT. -/
def EC_DOMPAR_ENC_EXPLICIT : EC_Domain_Params_Encoding := 0
/-- Modelled from the spec: enumerator EC_DOMPAR_ENC_IMPLICITCA. -/
def EC_DOMPAR_ENC_IMPLICITCA : EC_Domain_Params_Encoding := 1
/-- Modelled from the spec: enumerator EC_DOMPAR_ENC_OID. -/
def EC_DOMPAR_ENC_OID : EC_Domain_Params_Encoding := 2

/-- The point-arithmetic collaborators that `ecc_key.cpp` calls and that are
not part of the excerpt. Every theorem about the key classes holds for an
arbitrary value of this structure.
* `mul P k` is `P * k` (`operator*` of `point_gfp.h`);
* `check_invariants P` is `true` when `P.check_invariants()` returns and
  `false` when it throws Illegal_Point;
* `OS2ECP bits curve` is the octet-string-to-point conversion, which may throw. -/
structure PointArith where
  mul : PointGFp → BigInt → PointGFp
  check_invariants : PointGFp → Bool
  OS2ECP : List byte → CurveGFp → Except ErrorKind PointGFp

/-- The data members of `EC_PublicKey`. -/
structure EC_PublicKey where
  domain_params : EC_Domain_Params
  public_key : PointGFp
  domain_encoding : EC_Domain_Params_Encoding
  deriving DecidableEq, Repr

/-- The data members of `EC_PrivateKey`: those of the base class and the
private scalar. -/
structure EC_PrivateKey extends EC_PublicKey where
  private_key : BigInt
  deriving DecidableEq, Repr

/-- The constructor `EC_PublicKey(const EC_Domain_Params&, const PointGFp&)`. -/
def EC_PublicKey.create (A : PointArith) (dom_par : EC_Domain_Params)
    (pub_point : PointGFp) : Except ErrorKind EC_PublicKey :=
  let self : EC_PublicKey :=
    { domain_params := dom_par, public_key := pub_point,
      domain_encoding := EC_DOMPAR_ENC_EXPLICIT }
  if self.domain_params.curve ≠ self.public_key.curve then
    .error .Invalid_Argument
  else if A.check_invariants self.public_key then
    .ok self
  else
    .error .Invalid_State

/-- The member `EC_PublicKey::X509_load_hook`. -/
def EC_PublicKey.X509_load_hook (A : PointArith) (self : EC_PublicKey) :
    Outcome EC_PublicKey :=
  if A.check_invariants self.public_key then
    { state := self, thrown := none }
  else
    { state := self, thrown := some .Decoding_Error }

/-- The hook `EC_Key_Decoder::key_bits` of `EC_PublicKey::x509_decoder`. -/
def EC_PublicKey.x509_decoder_key_bits (A : PointArith) (key : EC_PublicKey)
    (bits : List byte) : Outcome EC_PublicKey :=
  match A.OS2ECP bits key.domain_params.curve with
  | .error e => { state := key, thrown := some e }
  | .ok pt => EC_PublicKey.X509_load_hook A { key with public_key := pt }

/-- The member `EC_PublicKey::set_parameter_encoding`. -/
def EC_PublicKey.set_parameter_encoding (self : EC_PublicKey)
    (form : EC_Domain_Params_Encoding) : Outcome EC_PublicKey :=
  if form ≠ EC_DOMPAR_ENC_EXPLICIT ∧
     form ≠ EC_DOMPAR_ENC_IMPLICITCA ∧
     form ≠ EC_DOMPAR_ENC_OID then
    { state := self, thrown := some .Invalid_Argument }
  else if form = EC_DOMPAR_ENC_OID ∧ self.domain_params.oid = "" then
    { state := self, thrown := some .Invalid_Argument }
  else
    { state := { self with domain_encoding := form }, thrown := none }

/-- The member `EC_PrivateKey::private_value`. -/
def EC_PrivateKey.private_value (self : EC_PrivateKey) : Except ErrorKind BigInt :=
  if self.private_key = 0 then .error .Invalid_State
  else .ok self.private_key

/-- The constructor `EC_PrivateKey(const EC_Domain_Params&, const BigInt&)`.
The base-class initializer `EC_PublicKey(dom_par, dom_par.get_base_point() *
private_key)` runs before the member initializer `private_key(priv_key)` and
names the member `private_key`, not the argument `priv_key`; `uninit` stands
for the indeterminate content that the member has at that moment. -/
def EC_PrivateKey.create (A : PointArith) (uninit : BigInt)
    (dom_par : EC_Domain_Params) (priv_key : BigInt) : Except ErrorKind EC_PrivateKey :=
  match EC_PublicKey.create A dom_par (A.mul dom_par.base_point uninit) with
  | .error e => .error e
  | .ok base => .ok { toEC_PublicKey := base, private_key := priv_key }

/-- The constructor `EC_PrivateKey(RandomNumberGenerator&, const
EC_Domain_Params&)`. `random_integer min max` is the value that
`BigInt::random_integer(rng, min, max)` draws from the random source. The
base-class default constructor leaves the encoding form EXPLICIT. -/
def EC_PrivateKey.generate (A : PointArith) (random_integer : BigInt → BigInt → BigInt)
    (dom_par : EC_Domain_Params) : Except ErrorKind EC_PrivateKey :=
  let private_key := random_integer 1 dom_par.order
  let public_key := A.mul dom_par.base_point private_key
  if A.check_invariants public_key then
    .ok { domain_params := dom_par, public_key := public_key,
          domain_encoding := EC_DOMPAR_ENC_EXPLICIT, private_key := private_key }
  else
    .error .Internal_Error

/-- The hook `EC_Key_Encoder::key_bits` of `EC_PrivateKey::pkcs8_encoder`:
`SEQUENCE { INTEGER 1, OCTET STRING encode_1363(private_key, private_key.bytes()) }`. -/
def EC_PrivateKey.pkcs8_encoder_key_bits (key : EC_PrivateKey) : List byte :=
  der_object SEQUENCE (UNIVERSAL ||| CONSTRUCTED)
    (der_object INTEGER UNIVERSAL (der_integer_contents 1) ++
     der_object OCTET_STRING UNIVERSAL
       (BigInt.encode_1363 key.private_key key.private_key.bytes))

/-- The member `EC_PrivateKey::PKCS8_load_hook`. -/
def EC_PrivateKey.PKCS8_load_hook (A : PointArith) (self : EC_PrivateKey) : EC_PrivateKey :=
  { self with public_key := A.mul self.domain_params.base_point self.private_key }

/-- The hook `EC_Key_Decoder::key_bits` of `EC_PrivateKey::pkcs8_decoder`. The
assignment to `private_key` precedes the version test, so it persists when the
test throws. -/
def EC_PrivateKey.pkcs8_decoder_key_bits (A : PointArith) (key : EC_PrivateKey)
    (bits : List byte) : Outcome EC_PrivateKey :=
  match decode_private_key_bits bits with
  | .error e => { state := key, thrown := some e }
  | .ok (version, octstr_secret) =>
    let key1 : EC_PrivateKey :=
      { key with private_key := BigInt.decode octstr_secret }
    if version ≠ 1 then
      { state := key1, thrown := some .Decoding_Error }
    else
      { state := EC_PrivateKey.PKCS8_load_hook A key1, thrown := none }

/-! ## A small curve on which the key classes can be evaluated -/

/-- The inverse of `x` modulo the prime `p`, by Fermat's little theorem. -/
def inv_mod (p x : BigInt) : BigInt := (x % p) ^ (p.natAbs - 2) % p

/-- Textbook affine addition on `y^2 = x^3 + a x + b` over the prime field. -/
def affine_add (P Q : PointGFp) : PointGFp :=
  match P.coords, Q.coords with
  | none, _ => { curve := P.curve, coords := Q.coords }
  | some c, none => { curve := P.curve, coords := some c }
  | some (x1, y1), some (x2, y2) =>
    let p := P.curve.p
    if x1 = x2 ∧ (y1 + y2) % p = 0 then { curve := P.curve, coords := none }
    else
      let lam :=
        if x1 = x2 then (3 * x1 * x1 + P.curve.a) * inv_mod p (2 * y1) % p
        else (y2 - y1) * inv_mod p (x2 - x1) % p
      let x3 := (lam * lam - x1 - x2) % p
      { curve := P.curve, coords := some (x3, (lam * (x1 - x3) - y1) % p) }

/-- The sum of `n` copies of `P`. -/
def affine_mul_nat (P : PointGFp) : Nat → PointGFp
  | 0 => { curve := P.curve, coords := none }
  | n + 1 => affine_add (affine_mul_nat P n) P

/-- The negative of a point. -/
def affine_neg (P : PointGFp) : PointGFp :=
  match P.coords with
  | none => P
  | some (x, y) => { curve := P.curve, coords := some (x, (-y) % P.curve.p) }

/-- Scalar multiplication by a signed scalar. -/
def affine_mul (P : PointGFp) (k : BigInt) : PointGFp :=
  if k < 0 then affine_neg (affine_mul_nat P k.natAbs) else affine_mul_nat P k.natAbs

/-- The curve equation: holds at infinity and at the affine points with
`y^2 = x^3 + a x + b` modulo `p`. -/
def on_curve (P : PointGFp) : Bool :=
  match P.coords with
  | none => true
  | some (x, y) => (y * y) % P.curve.p == (x * x * x + P.curve.a * x + P.curve.b) % P.curve.p

/-- An octet-string-to-point conversion for one-byte coordinates: `00` is the
point at infinity and `04 x y` the affine point `(x, y)`; every other string is
a Decoding_Error. -/
def simple_OS2ECP (bits : List byte) (curve : CurveGFp) : Except ErrorKind PointGFp :=
  match bits with
  | [0] => .ok { curve := curve, coords := none }
  | [4, x, y] => .ok { curve := curve, coords := some ((x.val : Int), (y.val : Int)) }
  | _ => .error .Decoding_Error

/-- Modelled from the spec: a concrete value of the point-arithmetic
collaborators (curve equation check, base point times scalar), by textbook
affine arithmetic; it serves to evaluate the key classes on concrete inputs. -/
def affineArith : PointArith where
  mul := affine_mul
  check_invariants := on_curve
  OS2ECP := simple_OS2ECP

/-- The curve `y^2 = x^3 + 2 x + 2` over the field of 17 elements. -/
def curve17 : CurveGFp := { p := 17, a := 2, b := 2 }

/-- Domain parameters over `curve17`: base point `(5, 1)` of order 19, without
an object identifier. -/
def dom17 : EC_Domain_Params :=
  { curve := curve17, base_point := { curve := curve17, coords := some (5, 1) },
    order := 19, oid := "" }

/-- The domain parameters `dom17`, registered under an object identifier. -/
def dom17_named : EC_Domain_Params := { dom17 with oid := "1.3.6.1.4.1.25258.4.17" }

/-! ## The alphabets that the claims about `choose_encoding` name -/

/-- Follows the spec's words, not the source: the PrintableString alphabet of
the standard: `A`-`Z`, `a`-`z`, `0`-`9`, space, and the punctuation
`' ( ) + , - . / : = ?`. -/
def in_PrintableString_alphabet (c : byte) : Bool :=
  (0x41 ≤ c.val && c.val ≤ 0x5A) || (0x61 ≤ c.val && c.val ≤ 0x7A) ||
  (0x30 ≤ c.val && c.val ≤ 0x39) || c.val == 0x20 ||
  c.val == 0x27 || c.val == 0x28 || c.val == 0x29 || c.val == 0x2B ||
  c.val == 0x2C || c.val == 0x2D || c.val == 0x2E || c.val == 0x2F ||
  c.val == 0x3A || c.val == 0x3D || c.val == 0x3F

/-- Follows the spec's words, not the source: ASCII letters, digits, space and
hyphen. -/
def is_letter_digit_space_hyphen (c : byte) : Bool :=
  (0x41 ≤ c.val && c.val ≤ 0x5A) || (0x61 ≤ c.val && c.val ≤ 0x7A) ||
  (0x30 ≤ c.val && c.val ≤ 0x39) || c.val == 0x20 || c.val == 0x2D

/-- The ASCII punctuation characters: the printing characters other than
letters, digits and space. -/
def is_ascii_punctuation (c : byte) : Bool :=
  (0x21 ≤ c.val && c.val ≤ 0x2F) || (0x3A ≤ c.val && c.val ≤ 0x40) ||
  (0x5B ≤ c.val && c.val ≤ 0x60) || (0x7B ≤ c.val && c.val ≤ 0x7E)

/-- Follows the spec's words, not the source: a byte of 0x80 or more, or a
disallowed punctuation character, that is an ASCII punctuation character
outside the PrintableString alphabet (`@ * _ ! &` among them). -/
def is_high_or_disallowed_punctuation (c : byte) : Bool :=
  0x80 ≤ c.val || (is_ascii_punctuation c && !in_PrintableString_alphabet c)

/-- The text `Hello World`. -/
def text_Hello_World : List byte :=
  [0x48, 0x65, 0x6C, 0x6C, 0x6F, 0x20, 0x57, 0x6F, 0x72, 0x6C, 0x64]

/-- The text `héllo` in UTF-8. -/
def text_hello_acute : List byte := [0x68, 0xC3, 0xA9, 0x6C, 0x6C, 0x6F]

/-! ## doc/examples/factor.cpp -/

/-- Modelled from the spec: `gcd` of `numthry.h`, the greatest common divisor
of two big integers (a non-negative value). -/
def gcd (a b : BigInt) : BigInt := (Int.gcd a b : Nat)

/-- The collaborators of `factor.cpp` that are not part of the excerpt. Every
theorem about the factorization holds for an arbitrary value of this structure.
* `PRIMES` is the table of small primes (`PRIME_TABLE_SIZE` is its length);
* `is_prime n` is the answer of the primality test;
* `random_integer c min max` is the value that the call number `c` of
  `random_integer(min, max)` draws. -/
structure FactorEnv where
  PRIMES : List Nat
  is_prime : BigInt → Bool
  random_integer : Nat → BigInt → BigInt → BigInt

/-- The loop `while(true)` of `rho`, entered with the current `x`, `y`, `i`
and `k`; `fuel` bounds the number of iterations. The counters `i` and `k` are
`u32bit`; `i` stops at 65536 and `k` never exceeds it, so neither wraps. -/
def rho_loop (n : BigInt) : Nat → BigInt → BigInt → Nat → Nat → Option BigInt
  | 0, _, _, _, _ => none
  | fuel + 1, x, y, i, k =>
    let i := i + 1
    let x := ((x + 1) * x) % n
    let d := gcd (y - x) n
    if d ≠ 1 ∧ d ≠ n then some d
    else if i = 65536 then some 0
    else if i = k then rho_loop n fuel x x i (2 * k)
    else rho_loop n fuel x y i k

/-- The function `rho`, with `x0` the value that `random_integer(0, n-1)`
draws. The loop leaves at `i == 65536` at the latest, so 65536 iterations are
enough fuel. -/
def rho (n x0 : BigInt) : Option BigInt := rho_loop n 65536 x0 x0 1 2

/-- The loop `while(n.is_even())` of `remove_small_factors`: returns the
remaining `n` and the factors collected so far. -/
def remove_twos : Nat → BigInt → List BigInt → Option (BigInt × List BigInt)
  | 0, _, _ => none
  | fuel + 1, n, factors =>
    if n % 2 = 0 then remove_twos fuel (n / 2) (factors ++ [2])
    else some (n, factors)

/-- The loop `while(x != 1) { x /= PRIMES[j]; occurs++; }` of
`remove_small_factors`: returns `occurs`. -/
def count_occurs : Nat → BigInt → BigInt → Nat → Option Nat
  | 0, _, _, _ => none
  | fuel + 1, x, p, occurs =>
    if x ≠ 1 then count_occurs fuel (x / p) p (occurs + 1)
    else some occurs

/-- The loop `for(j = 0; j != PRIME_TABLE_SIZE; j++)` of
`remove_small_factors`, over the entries of the table that are still to come. -/
def small_primes_loop (fuel : Nat) :
    List Nat → BigInt → List BigInt → Option (BigInt × List BigInt)
  | [], n, factors => some (n, factors)
  | p :: rest, n, factors =>
    if n < (p : BigInt) then some (n, factors)
    else
      let x := gcd n p
      if x ≠ 1 then
        match count_occurs fuel x p 0 with
        | none => none
        | some occurs =>
          small_primes_loop fuel rest (n / x) (factors ++ List.replicate occurs (p : BigInt))
      else small_primes_loop fuel rest n factors

/-- The function `remove_small_factors`: returns the value that it leaves in
its reference argument `n`, and the vector of factors. -/
def remove_small_factors (E : FactorEnv) (fuel : Nat) (n : BigInt) :
    Option (BigInt × List BigInt) :=
  match remove_twos fuel n [] with
  | none => none
  | some (n1, factors) => small_primes_loop fuel E.PRIMES n1 factors

/-- The loop `while(a_factor == 0) a_factor = rho(n);` of `factorize`; `c`
counts the calls of `random_integer` made so far. Returns the factor and the
updated count. -/
def find_factor (E : FactorEnv) : Nat → Nat → BigInt → Option (BigInt × Nat)
  | 0, _, _ => none
  | fuel + 1, c, n =>
    match rho n (E.random_integer c 0 (n - 1)) with
    | none => none
    | some a_factor =>
      if a_factor = 0 then find_factor E fuel (c + 1) n
      else some (a_factor, c + 1)

/-- The loop `while(n != 1)` of `factorize`, followed by `return factors`. -/
def factorize_loop (E : FactorEnv) : Nat → Nat → BigInt → List BigInt → Option (List BigInt)
  | 0, _, _, _ => none
  | fuel + 1, c, n, factors =>
    if n ≠ 1 then
      if E.is_prime n then some (factors ++ [n])
      else
        match find_factor E fuel c n with
        | none => none
        | some (a_factor, c1) =>
          factorize_loop E fuel c1 (n / a_factor) (factors ++ [a_factor])
    else some factors

/-- The function `factorize`; `none` when `fuel` does not suffice for one of
its loops. -/
def factorize (E : FactorEnv) (fuel : Nat) (n_in : BigInt) : Option (List BigInt) :=
  match remove_small_factors E fuel n_in with
  | none => none
  | some (n, factors) =>
    if E.is_prime n then some (factors ++ [n])
    else factorize_loop E fuel 0 n factors

/-- A value of the collaborators of `factor.cpp` on which the factorization
can be evaluated: the table `3, 5, 7`, the exact primality test, and a random
source that always draws 2. -/
def smallEnv : FactorEnv where
  PRIMES := [3, 5, 7]
  is_prime := fun n => decide (Nat.Prime n.natAbs)
  random_integer := fun _ _ _ => 2

end Botan

namespace Botan

set_option maxRecDepth 100000

/-! ## Theorems: asn1_str.cpp -/

theorem choose_encoding_eq_all (s : List byte) :
    choose_encoding s =
      if s.all (fun c => !not_printable c) then PRINTABLE_STRING else UTF8_STRING := by
  induction s with
  | nil => rfl
  | cons c rest ih =>
    cases h : not_printable c <;> simp [choose_encoding, h, ih]

theorem not_printable_of_letter_digit_space_hyphen :
    ∀ c : byte, is_letter_digit_space_hyphen c = true → not_printable c = false := by
  decide

theorem not_printable_of_high_or_disallowed :
    ∀ c : byte, is_high_or_disallowed_punctuation c = true → not_printable c = true := by
  decide

theorem not_printable_iff_alphabet :
    ∀ c : byte, not_printable c = false ↔
      (in_PrintableString_alphabet c = true ∧ c ≠ 0x27) := by
  decide

theorem assert_is_string_type_ok_iff (t : ASN1_Tag) :
    assert_is_string_type t = .ok () ↔ t ∈ string_tags := by
  unfold assert_is_string_type string_tags
  by_cases h : t ≠ NUMERIC_STRING ∧ t ≠ PRINTABLE_STRING ∧ t ≠ VISIBLE_STRING ∧
      t ≠ T61_STRING ∧ t ≠ IA5_STRING ∧ t ≠ UTF8_STRING ∧ t ≠ BMP_STRING ∧
      t ≠ UNIVERSAL_STRING
  · rw [if_pos h]
    simp only [List.mem_cons, List.mem_singleton, List.not_mem_nil, or_false]
    constructor
    · intro h'; cases h'
    · intro h'; tauto
  · rw [if_neg h]
    simp only [List.mem_cons, List.mem_singleton, List.not_mem_nil, or_false, true_iff]
    tauto

theorem assert_is_string_type_error (t : ASN1_Tag) (h : t ∉ string_tags) :
    assert_is_string_type t = .error .Invalid_Argument := by
  have h' := mt (assert_is_string_type_ok_iff t).1 h
  unfold assert_is_string_type at h' ⊢
  split
  · rfl
  · rename_i hn; rw [if_neg hn] at h'; exact absurd rfl h'

theorem decode_from_ok_retains (self : ASN1_String) (obj : BER_Object)
    (hok : (self.decode_from obj).thrown = none) :
    (self.decode_from obj).state.m_tag = obj.type_tag ∧
    (self.decode_from obj).state.m_data = obj.value := by
  have ht : obj.type_tag ∈ string_tags := by
    by_contra hn
    simp [ASN1_String.decode_from, assert_is_string_type_error obj.type_tag hn] at hok
  have hassert := (assert_is_string_type_ok_iff obj.type_tag).2 ht
  simp only [ASN1_String.decode_from, hassert]
  split
  · split <;> exact ⟨rfl, rfl⟩
  · split
    · split <;> exact ⟨rfl, rfl⟩
    · exact ⟨rfl, rfl⟩

/-- C1: when `decode_from` decodes a wire object `B` of class UNIVERSAL
successfully, `B` carries a recognized string tag, the object retains the
value bytes of `B` as its raw bytes, and a following `encode_into` appends
exactly `B` (same tag, class UNIVERSAL, identical value bytes) to the encoder,
whatever the object held before and also when the value of `B` is empty. -/
theorem decode_from_encode_into_reemits (self : ASN1_String) (B : BER_Object)
    (encoder : DER_Encoder) (hclass : B.class_tag = UNIVERSAL)
    (hok : (self.decode_from B).thrown = none) :
    B.type_tag ∈ string_tags ∧
    (self.decode_from B).state.m_data = B.value ∧
    (self.decode_from B).state.encode_into encoder = encoder ++ [B] := by
  have hretain := (decode_from_ok_retains self B hok).2
  obtain ⟨tag, cls, value⟩ := B
  simp only at hclass
  subst hclass
  have htag : tag ∈ string_tags := by
    by_contra hne
    have herr := assert_is_string_type_error tag hne
    simp [ASN1_String.decode_from, herr] at hok
  refine ⟨htag, hretain, ?_⟩
  have hassert := (assert_is_string_type_ok_iff tag).2 htag
  simp only [ASN1_String.decode_from, hassert] at hok ⊢
  by_cases hb : tag = BMP_STRING
  · simp only [hb, if_true] at hok ⊢
    cases hu : ucs2_to_utf8 value with
    | error e => simp [hu] at hok
    | ok t =>
      cases value with
      | nil =>
        simp only [ucs2_to_utf8, Except.ok.injEq] at hu
        subst hu
        simp [ASN1_String.encode_into, ASN1_String.tagging, DER_Encoder.add_object]
      | cons b bs =>
        simp [ASN1_String.encode_into, ASN1_String.tagging, DER_Encoder.add_object]
  · simp only [hb, if_false] at hok ⊢
    by_cases hu4 : tag = UNIVERSAL_STRING
    · simp only [hu4, if_true] at hok ⊢
      cases hu : ucs4_to_utf8 value with
      | error e => simp [hu] at hok
      | ok t =>
        cases value with
        | nil =>
          simp only [ucs4_to_utf8, Except.ok.injEq] at hu
          subst hu
          simp [ASN1_String.encode_into, ASN1_String.tagging, DER_Encoder.add_object]
        | cons b bs =>
          simp [ASN1_String.encode_into, ASN1_String.tagging, DER_Encoder.add_object]
    · simp only [hu4, if_false]
      cases value with
      | nil =>
        simp [ASN1_String.encode_into, ASN1_String.tagging, DER_Encoder.add_object,
          ASN1.to_string]
      | cons b bs =>
        simp [ASN1_String.encode_into, ASN1_String.tagging, DER_Encoder.add_object]

/-- Witness for C1. First, an object that held other text, raw bytes and tag
decodes the BMP_STRING object with the four value bytes `00 5A 20 AC`: it
retains those bytes, its canonical text is the different byte string
`5A E2 82 AC`, and `encode_into` appends exactly the decoded object, with the
retained raw bytes, to an encoder that already holds an object. Second, the
same for a BMP_STRING object with an empty value. -/
theorem decode_from_encode_into_reemits_witness :
    ((BER_Object.mk BMP_STRING UNIVERSAL [0x00, 0x5A, 0x20, 0xAC]).class_tag = UNIVERSAL ∧
     (ASN1_String.mk [0x41] [0x42] UTF8_STRING).decode_from
        (BER_Object.mk BMP_STRING UNIVERSAL [0x00, 0x5A, 0x20, 0xAC]) =
       { state := ASN1_String.mk [0x5A, 0xE2, 0x82, 0xAC] [0x00, 0x5A, 0x20, 0xAC] BMP_STRING,
         thrown := none } ∧
     (BMP_STRING ∈ string_tags ∧
      ((ASN1_String.mk [0x41] [0x42] UTF8_STRING).decode_from
        (BER_Object.mk BMP_STRING UNIVERSAL [0x00, 0x5A, 0x20, 0xAC])).state.m_data =
        [0x00, 0x5A, 0x20, 0xAC] ∧
      ((ASN1_String.mk [0x41] [0x42] UTF8_STRING).decode_from
        (BER_Object.mk BMP_STRING UNIVERSAL [0x00, 0x5A, 0x20, 0xAC])).state.encode_into
          [BER_Object.mk INTEGER UNIVERSAL [0x01]] =
        [BER_Object.mk INTEGER UNIVERSAL [0x01]] ++
          [BER_Object.mk BMP_STRING UNIVERSAL [0x00, 0x5A, 0x20, 0xAC]])) ∧
    (((ASN1_String.mk [0x41] [0x42] UTF8_STRING).decode_from
        (BER_Object.mk BMP_STRING UNIVERSAL [])).thrown = none ∧
     (BMP_STRING ∈ string_tags ∧
      ((ASN1_String.mk [0x41] [0x42] UTF8_STRING).decode_from
        (BER_Object.mk BMP_STRING UNIVERSAL [])).state.m_data = [] ∧
      ((ASN1_String.mk [0x41] [0x42] UTF8_STRING).decode_from
        (BER_Object.mk BMP_STRING UNIVERSAL [])).state.encode_into [] =
        [] ++ [BER_Object.mk BMP_STRING UNIVERSAL []])) :=
  ⟨⟨rfl, by decide,
    decode_from_encode_into_reemits (ASN1_String.mk [0x41] [0x42] UTF8_STRING)
      (BER_Object.mk BMP_STRING UNIVERSAL [0x00, 0x5A, 0x20, 0xAC])
      [BER_Object.mk INTEGER UNIVERSAL [0x01]] rfl (by decide)⟩,
   ⟨by decide,
    decode_from_encode_into_reemits (ASN1_String.mk [0x41] [0x42] UTF8_STRING)
      (BER_Object.mk BMP_STRING UNIVERSAL []) [] rfl (by decide)⟩⟩

/-- C3: `choose_encoding` returns PRINTABLE_STRING for every text made only of
ASCII letters, digits, space and hyphen (the empty text and `Hello World`
included), returns UTF8_STRING for every text that contains a byte of 0x80 or
more or a disallowed punctuation character (`@ * _ ! &` are such characters;
`héllo` is such a text), and never returns a third tag. -/
theorem choose_encoding_tag_selection :
    (∀ s : List byte, (∀ c ∈ s, is_letter_digit_space_hyphen c = true) →
        choose_encoding s = PRINTABLE_STRING) ∧
    choose_encoding [] = PRINTABLE_STRING ∧
    choose_encoding text_Hello_World = PRINTABLE_STRING ∧
    (∀ s : List byte, (∃ c ∈ s, is_high_or_disallowed_punctuation c = true) →
        choose_encoding s = UTF8_STRING) ∧
    (∀ c ∈ ([0x40, 0x2A, 0x5F, 0x21, 0x26] : List byte),
        is_high_or_disallowed_punctuation c = true) ∧
    choose_encoding text_hello_acute = UTF8_STRING ∧
    (∀ s : List byte,
        choose_encoding s = PRINTABLE_STRING ∨ choose_encoding s = UTF8_STRING) := by
  refine ⟨?_, rfl, by decide, ?_, by decide, by decide, ?_⟩
  · intro s hs
    rw [choose_encoding_eq_all, if_pos]
    rw [List.all_eq_true]
    intro c hc
    simp [not_printable_of_letter_digit_space_hyphen c (hs c hc)]
  · rintro s ⟨c, hc, hbad⟩
    rw [choose_encoding_eq_all, if_neg]
    rw [List.all_eq_true]
    intro hall
    have := hall c hc
    simp [not_printable_of_high_or_disallowed c hbad] at this
  · intro s
    rw [choose_encoding_eq_all]
    split
    · exact Or.inl rfl
    · exact Or.inr rfl

/-- Witness for C3: the first part at the text `A-1 z`, the second at the
text `a@b`. -/
theorem choose_encoding_tag_selection_witness :
    choose_encoding [0x41, 0x2D, 0x31, 0x20, 0x7A] = PRINTABLE_STRING ∧
    choose_encoding [0x61, 0x40, 0x62] = UTF8_STRING :=
  ⟨choose_encoding_tag_selection.1 [0x41, 0x2D, 0x31, 0x20, 0x7A] (by decide),
   choose_encoding_tag_selection.2.2.2.1 [0x61, 0x40, 0x62] ⟨0x40, by decide, by decide⟩⟩

/-- C4, as the claim states it, fails: the apostrophe (0x27) belongs to the
PrintableString alphabet of the standard, its entry in `IS_PRINTABLE` is zero,
and `choose_encoding` returns UTF8_STRING for the one-character text `'`. -/
theorem choose_encoding_apostrophe :
    (∀ c ∈ ([0x27] : List byte), in_PrintableString_alphabet c = true) ∧
    IS_PRINTABLE.getD 0x27 0 = 0 ∧
    choose_encoding [0x27] = UTF8_STRING ∧
    choose_encoding [0x27] ≠ PRINTABLE_STRING := by
  decide

/-- C4, amended: `choose_encoding` returns PRINTABLE_STRING exactly when every
character lies in the PrintableString alphabet of the standard without the
apostrophe, and UTF8_STRING otherwise; the table `IS_PRINTABLE` marks exactly
those bytes. -/
theorem choose_encoding_printable_iff :
    (∀ s : List byte,
      choose_encoding s =
        if s.all (fun c => in_PrintableString_alphabet c && c != 0x27)
        then PRINTABLE_STRING else UTF8_STRING) ∧
    (∀ s : List byte, choose_encoding s = PRINTABLE_STRING ↔
        ∀ c ∈ s, in_PrintableString_alphabet c = true ∧ c ≠ 0x27) ∧
    (∀ c : byte, IS_PRINTABLE.getD c.val 0 ≠ 0 ↔
        (in_PrintableString_alphabet c = true ∧ c ≠ 0x27)) := by
  have hall : ∀ s : List byte,
      s.all (fun c => !not_printable c) =
        s.all (fun c => in_PrintableString_alphabet c && c != 0x27) := by
    intro s
    congr 1
    funext c
    revert c
    decide
  refine ⟨?_, ?_, by decide⟩
  · intro s
    rw [choose_encoding_eq_all, hall]
  · intro s
    rw [choose_encoding_eq_all]
    have hne : UTF8_STRING ≠ PRINTABLE_STRING := by decide
    constructor
    · intro h c hc
      by_cases hp : s.all (fun c => !not_printable c) = true
      · rw [List.all_eq_true] at hp
        have := hp c hc
        exact (not_printable_iff_alphabet c).1 (by simpa using this)
      · rw [if_neg hp] at h
        exact absurd h hne
    · intro h
      rw [if_pos]
      rw [List.all_eq_true]
      intro c hc
      simp [(not_printable_iff_alphabet c).2 (h c hc)]

/-- C5: `assert_is_string_type` returns for exactly the eight string tags and
throws for every other tag; the two-argument constructor with a tag outside
the eight that is not the DIRECTORY_STRING sentinel throws, and so does
`decode_from` on an object that carries such a tag (SEQUENCE for one), leaving
the object as it was. -/
theorem assert_is_string_type_exact :
    (∀ t : ASN1_Tag, assert_is_string_type t = .ok () ↔ t ∈ string_tags) ∧
    (∀ t : ASN1_Tag, t ∉ string_tags →
        assert_is_string_type t = .error .Invalid_Argument) ∧
    (∀ (str : List byte) (t : ASN1_Tag), t ∉ string_tags → t ≠ DIRECTORY_STRING →
        ASN1_String.create str t = .error .Invalid_Argument) ∧
    (∀ (self : ASN1_String) (obj : BER_Object), obj.type_tag ∉ string_tags →
        self.decode_from obj = { state := self, thrown := some .Invalid_Argument }) ∧
    SEQUENCE ∉ string_tags ∧ SEQUENCE ≠ DIRECTORY_STRING := by
  refine ⟨assert_is_string_type_ok_iff, assert_is_string_type_error, ?_, ?_,
    by decide, by decide⟩
  · intro str t ht hd
    simp [ASN1_String.create, hd, assert_is_string_type_error t ht]
  · intro self obj ht
    simp [ASN1_String.decode_from, assert_is_string_type_error obj.type_tag ht]

/-- Witness for C5: the tag SEQUENCE is rejected by the check, by the
constructor and by `decode_from`. -/
theorem assert_is_string_type_exact_witness :
    assert_is_string_type SEQUENCE = .error .Invalid_Argument ∧
    ASN1_String.create [0x41] SEQUENCE = .error .Invalid_Argument ∧
    (ASN1_String.mk [0x41] [] PRINTABLE_STRING).decode_from
        (BER_Object.mk SEQUENCE (UNIVERSAL ||| CONSTRUCTED) [0x41]) =
      { state := ASN1_String.mk [0x41] [] PRINTABLE_STRING,
        thrown := some .Invalid_Argument } :=
  ⟨assert_is_string_type_exact.2.1 SEQUENCE (by decide),
   assert_is_string_type_exact.2.2.1 [0x41] SEQUENCE (by decide) (by decide),
   assert_is_string_type_exact.2.2.2.1 (ASN1_String.mk [0x41] [] PRINTABLE_STRING)
     (BER_Object.mk SEQUENCE (UNIVERSAL ||| CONSTRUCTED) [0x41]) (by decide)⟩

end Botan

namespace Botan

/-! ## Theorems: big-endian bytes and the TLV codec -/

theorem significant_bytes_fuel_lt (fuel : Nat) :
    ∀ n : Nat, n ≤ fuel → n < 256 ^ significant_bytes_fuel fuel n := by
  induction fuel with
  | zero => intro n hn; simp [significant_bytes_fuel]; omega
  | succ fuel ih =>
    intro n hn
    unfold significant_bytes_fuel
    by_cases h0 : n = 0
    · simp [h0]
    · rw [if_neg h0]
      have hdiv : n / 256 ≤ fuel := by omega
      have := ih (n / 256) hdiv
      rw [pow_succ]
      omega

theorem significant_bytes_fuel_le (fuel : Nat) :
    ∀ n w : Nat, n < 256 ^ w → significant_bytes_fuel fuel n ≤ w := by
  induction fuel with
  | zero => intro n w _; simp [significant_bytes_fuel]
  | succ fuel ih =>
    intro n w hn
    unfold significant_bytes_fuel
    by_cases h0 : n = 0
    · simp [h0]
    · rw [if_neg h0]
      cases w with
      | zero => simp at hn; exact absurd hn h0
      | succ w =>
        rw [pow_succ] at hn
        have : n / 256 < 256 ^ w := by omega
        have := ih (n / 256) w this
        omega

theorem lt_pow_significant_bytes (n : Nat) : n < 256 ^ significant_bytes n :=
  significant_bytes_fuel_lt n n (Nat.le_refl n)

theorem significant_bytes_le (n w : Nat) (h : n < 256 ^ w) : significant_bytes n ≤ w :=
  significant_bytes_fuel_le n n w h

theorem significant_bytes_pos (n : Nat) (h : n ≠ 0) : 1 ≤ significant_bytes n := by
  unfold significant_bytes
  cases n with
  | zero => exact absurd rfl h
  | succ m => unfold significant_bytes_fuel; simp

theorem be_fixed_length (width : Nat) : ∀ n : Nat, (be_fixed width n).length = width := by
  induction width with
  | zero => intro n; rfl
  | succ w ih => intro n; simp [be_fixed, ih]

theorem be_decode_append_singleton (xs : List byte) (b : byte) :
    be_decode (xs ++ [b]) = be_decode xs * 256 + b.val := by
  simp [be_decode, List.foldl_append]

theorem be_decode_be_fixed (width : Nat) :
    ∀ n : Nat, be_decode (be_fixed width n) = n % 256 ^ width := by
  induction width with
  | zero => intro n; simp [be_fixed, be_decode, Nat.mod_one]
  | succ w ih =>
    intro n
    have hval : (Fin.ofNat (n % 256) : byte).val = n % 256 := by
      show (n % 256) % 256 = n % 256
      omega
    rw [be_fixed, be_decode_append_singleton, ih, hval, pow_succ, Nat.mul_comm (256 ^ w) 256,
      Nat.mod_mul]
    omega

theorem be_decode_be_fixed_significant (n : Nat) :
    be_decode (be_fixed (significant_bytes n) n) = n := by
  rw [be_decode_be_fixed, Nat.mod_eq_of_lt (lt_pow_significant_bytes n)]

theorem BigInt_decode_encode_1363 (k : BigInt) (hk : 0 ≤ k) :
    BigInt.decode (BigInt.encode_1363 k k.bytes) = k := by
  unfold BigInt.decode BigInt.encode_1363 BigInt.bytes
  rw [be_decode_be_fixed_significant]
  exact Int.natAbs_of_nonneg hk

theorem encode_length_length (n : Nat) (h : n < 2 ^ 32) : (encode_length n).length ≤ 5 := by
  unfold encode_length
  split
  · simp
  · have := significant_bytes_le n 4 (by norm_num at h ⊢; exact h)
    simp [be_fixed_length]; omega

theorem decode_length_encode_length (n : Nat) (h : n < 2 ^ 32) (rest : List byte) :
    decode_length (encode_length n ++ rest) = .ok (n, rest) := by
  unfold encode_length
  by_cases hs : n ≤ 127
  · rw [if_pos hs]
    have hval : (Fin.ofNat n : byte).val = n := by
      show n % 256 = n
      omega
    simp [decode_length, hval]
    omega
  · rw [if_neg hs]
    have hle := significant_bytes_le n 4 (by norm_num at h ⊢; exact h)
    have hpos := significant_bytes_pos n (by omega)
    have hval : (Fin.ofNat (0x80 + significant_bytes n) : byte).val
        = 128 + significant_bytes n := by
      show (0x80 + significant_bytes n) % 256 = 128 + significant_bytes n
      omega
    have hlen := be_fixed_length (significant_bytes n) n
    simp only [List.cons_append, decode_length, hval]
    rw [if_neg (by omega), if_neg (by omega), if_neg (by omega), if_neg]
    · have e : 128 + significant_bytes n - 128 = significant_bytes n := by omega
      rw [e, List.take_left' hlen, List.drop_left' hlen, be_decode_be_fixed_significant]
    · simp [hlen]

theorem get_next_object_tlv (b : byte) (contents rest : List byte)
    (hb : b.val % 32 ≠ 31) (hlen : contents.length < 2 ^ 32) :
    get_next_object (b :: (encode_length contents.length ++ contents) ++ rest) =
      .ok ({ type_tag := b.val % 32, class_tag := b.val / 32 * 32, value := contents },
           rest) := by
  simp only [List.cons_append, List.append_assoc, get_next_object]
  rw [if_neg hb, decode_length_encode_length _ hlen]
  simp

end Botan

namespace Botan

/-! ## Theorems: ecc_key.cpp -/

theorem decode_private_key_bits_encoder (k : BigInt) (hsize : k.bytes < 2 ^ 31) :
    decode_private_key_bits
        (der_object SEQUENCE (UNIVERSAL ||| CONSTRUCTED)
          (der_object INTEGER UNIVERSAL (der_integer_contents 1) ++
           der_object OCTET_STRING UNIVERSAL (BigInt.encode_1363 k k.bytes))) =
      .ok (1, BigInt.encode_1363 k k.bytes) := by
  have holen : (BigInt.encode_1363 k k.bytes).length = k.bytes := by
    unfold BigInt.encode_1363; exact be_fixed_length _ _
  generalize hoct : BigInt.encode_1363 k k.bytes = octs at holen
  have holt : octs.length < 2 ^ 32 := by rw [holen]; omega
  have hint : der_object INTEGER UNIVERSAL (der_integer_contents 1) = [2, 1, 1] := by decide
  have hseqtag : encode_tag SEQUENCE (UNIVERSAL ||| CONSTRUCTED) = (0x30 : byte) := by decide
  have hocttag : encode_tag OCTET_STRING UNIVERSAL = (0x04 : byte) := by decide
  -- the inner OCTET STRING object
  have hinner : get_next_object (der_object OCTET_STRING UNIVERSAL octs) =
      .ok ({ type_tag := OCTET_STRING, class_tag := UNIVERSAL, value := octs }, []) := by
    have := get_next_object_tlv (0x04 : byte) octs [] (by decide) holt
    simpa [der_object, hocttag] using this
  -- the length of the SEQUENCE contents
  have hclen : ([2, 1, 1] ++ der_object OCTET_STRING UNIVERSAL octs).length < 2 ^ 32 := by
    have := encode_length_length octs.length holt
    simp only [der_object, List.length_append, List.length_cons, List.length_nil]
    omega
  have houter := get_next_object_tlv (0x30 : byte)
    ([2, 1, 1] ++ der_object OCTET_STRING UNIVERSAL octs) [] (by decide) hclen
  rw [hint]
  unfold decode_private_key_bits
  have hshape : der_object SEQUENCE (UNIVERSAL ||| CONSTRUCTED)
      ([2, 1, 1] ++ der_object OCTET_STRING UNIVERSAL octs) =
      (0x30 : byte) :: (encode_length ([2, 1, 1] ++ der_object OCTET_STRING UNIVERSAL octs).length
        ++ ([2, 1, 1] ++ der_object OCTET_STRING UNIVERSAL octs)) ++ [] := by
    simp [der_object, hseqtag]
  rw [hshape, houter]
  have hver : get_next_object ([2, 1, 1] ++ der_object OCTET_STRING UNIVERSAL octs) =
      .ok ({ type_tag := INTEGER, class_tag := UNIVERSAL, value := [1] },
           der_object OCTET_STRING UNIVERSAL octs) := by
    simp [get_next_object, decode_length, INTEGER, UNIVERSAL]
  have h1 : ((0x30 : byte).val % 32 = SEQUENCE ∧
      (0x30 : byte).val / 32 * 32 = (UNIVERSAL ||| CONSTRUCTED)) := by decide
  simp only [h1, and_self, not_true_eq_false, if_false, hver, hinner]
  simp [decode_u32bit, be_decode]

/-- C2, the code at the failing input: over the curve `y^2 = x^3 + 2x + 2`
modulo 17 with base point `(5, 1)`, the constructor called with private
scalar 2 (the not yet initialized member reading as zero) succeeds and yields
a key that holds scalar 2 and the point at infinity, whereas base point times
2 is `(6, 3)`. -/
theorem private_key_create_wrong_point :
    EC_PrivateKey.create affineArith 0 dom17 2 =
      .ok { domain_params := dom17,
            public_key := { curve := curve17, coords := none },
            domain_encoding := EC_DOMPAR_ENC_EXPLICIT,
            private_key := 2 } ∧
    affineArith.mul dom17.base_point 2 = { curve := curve17, coords := some (6, 3) } ∧
    ({ curve := curve17, coords := none } : PointGFp) ≠ affineArith.mul dom17.base_point 2 := by
  refine ⟨by rfl, by decide, by decide⟩

theorem private_key_create_point (A : PointArith) (uninit : BigInt)
    (dom_par : EC_Domain_Params) (priv_key : BigInt) (key : EC_PrivateKey)
    (h : EC_PrivateKey.create A uninit dom_par priv_key = .ok key) :
    key.private_key = priv_key ∧
    key.public_key = A.mul dom_par.base_point uninit := by
  unfold EC_PrivateKey.create EC_PublicKey.create at h
  simp only at h
  split at h
  · cases h
  · rename_i base hbase
    split at hbase
    · cases hbase
    · split at hbase
      · injection hbase with hbase
        injection h with h
        subst h; subst hbase
        exact ⟨rfl, rfl⟩
      · cases hbase

/-- C6: when the decoder chain of the PKCS #8 hook `key_bits` reads a
`SEQUENCE { version, OCTET STRING }` payload, the hook returns if the version
is 1 and throws Decoding_Error for every other version. -/
theorem pkcs8_decoder_key_bits_version (A : PointArith) (key : EC_PrivateKey)
    (bits : List byte) (version : Nat) (octstr_secret : List byte)
    (hparse : decode_private_key_bits bits = .ok (version, octstr_secret)) :
    (version = 1 → (EC_PrivateKey.pkcs8_decoder_key_bits A key bits).thrown = none) ∧
    (version ≠ 1 →
      (EC_PrivateKey.pkcs8_decoder_key_bits A key bits).thrown = some .Decoding_Error) := by
  unfold EC_PrivateKey.pkcs8_decoder_key_bits
  rw [hparse]
  constructor
  · intro h; simp [h]
  · intro h; simp [h]

/-- Witness for C6: the payload `30 06 02 01 02 04 01 05` (version 2, scalar
bytes `05`) is read by the decoder chain and rejected with Decoding_Error. -/
theorem pkcs8_decoder_key_bits_version_witness :
    decode_private_key_bits [0x30, 0x06, 0x02, 0x01, 0x02, 0x04, 0x01, 0x05] = .ok (2, [0x05]) ∧
    (EC_PrivateKey.pkcs8_decoder_key_bits affineArith
        { domain_params := dom17, public_key := dom17.base_point,
          domain_encoding := EC_DOMPAR_ENC_EXPLICIT, private_key := 0 }
        [0x30, 0x06, 0x02, 0x01, 0x02, 0x04, 0x01, 0x05]).thrown = some .Decoding_Error :=
  ⟨by rfl,
   (pkcs8_decoder_key_bits_version affineArith
      { domain_params := dom17, public_key := dom17.base_point,
        domain_encoding := EC_DOMPAR_ENC_EXPLICIT, private_key := 0 }
      [0x30, 0x06, 0x02, 0x01, 0x02, 0x04, 0x01, 0x05] 2 [0x05] (by rfl)).2 (by decide)⟩

/-- C7: `set_parameter_encoding(form)` returns exactly when `form` is one of
EXPLICIT, IMPLICIT-CA, NAMED-CURVE-OID and it is not NAMED-CURVE-OID over
domain parameters with an empty object identifier; then the stored form is
`form` and nothing else changes; otherwise it throws Invalid_Argument and the
key is unchanged. -/
theorem set_parameter_encoding_exact (self : EC_PublicKey)
    (form : EC_Domain_Params_Encoding) :
    ((self.set_parameter_encoding form).thrown = none ↔
      ((form = EC_DOMPAR_ENC_EXPLICIT ∨ form = EC_DOMPAR_ENC_IMPLICITCA ∨
          form = EC_DOMPAR_ENC_OID) ∧
        ¬ (form = EC_DOMPAR_ENC_OID ∧ self.domain_params.oid = ""))) ∧
    ((self.set_parameter_encoding form).thrown = none →
      (self.set_parameter_encoding form).state.domain_encoding = form ∧
      (self.set_parameter_encoding form).state = { self with domain_encoding := form }) ∧
    ((self.set_parameter_encoding form).thrown ≠ none →
      (self.set_parameter_encoding form).thrown = some .Invalid_Argument ∧
      (self.set_parameter_encoding form).state = self) := by
  unfold EC_PublicKey.set_parameter_encoding
  by_cases h1 : form ≠ EC_DOMPAR_ENC_EXPLICIT ∧ form ≠ EC_DOMPAR_ENC_IMPLICITCA ∧
      form ≠ EC_DOMPAR_ENC_OID
  · rw [if_pos h1]
    simp only [reduceCtorEq, false_iff, not_and, not_not, false_implies, ne_eq,
      not_false_eq_true, true_implies, and_self, and_true, true_and]
    intro h; tauto
  · rw [if_neg h1]
    by_cases h2 : form = EC_DOMPAR_ENC_OID ∧ self.domain_params.oid = ""
    · rw [if_pos h2]
      simp only [reduceCtorEq, false_iff, not_and, not_not, false_implies, ne_eq,
        not_false_eq_true, true_implies, and_self, and_true, true_and]
      intro _ hh; exact hh h2.1 h2.2
    · rw [if_neg h2]
      simp only [true_iff, true_implies, ne_eq, not_true_eq_false, false_implies, and_true,
        and_self]
      exact ⟨by tauto, h2⟩

/-- Witness for C7: over domain parameters without an object identifier the
form NAMED-CURVE-OID is refused and the stored form stays EXPLICIT; over named
domain parameters the same call stores the form. -/
theorem set_parameter_encoding_exact_witness :
    ((EC_PublicKey.mk dom17 dom17.base_point EC_DOMPAR_ENC_EXPLICIT).set_parameter_encoding
        EC_DOMPAR_ENC_OID).thrown = some .Invalid_Argument ∧
    ((EC_PublicKey.mk dom17 dom17.base_point EC_DOMPAR_ENC_EXPLICIT).set_parameter_encoding
        EC_DOMPAR_ENC_OID).state = EC_PublicKey.mk dom17 dom17.base_point EC_DOMPAR_ENC_EXPLICIT ∧
    ((EC_PublicKey.mk dom17_named dom17.base_point
        EC_DOMPAR_ENC_EXPLICIT).set_parameter_encoding
        EC_DOMPAR_ENC_OID).state.domain_encoding = EC_DOMPAR_ENC_OID :=
  ⟨((set_parameter_encoding_exact
        (EC_PublicKey.mk dom17 dom17.base_point EC_DOMPAR_ENC_EXPLICIT)
        EC_DOMPAR_ENC_OID).2.2 (by decide)).1,
   ((set_parameter_encoding_exact
        (EC_PublicKey.mk dom17 dom17.base_point EC_DOMPAR_ENC_EXPLICIT)
        EC_DOMPAR_ENC_OID).2.2 (by decide)).2,
   ((set_parameter_encoding_exact
        (EC_PublicKey.mk dom17_named dom17.base_point EC_DOMPAR_ENC_EXPLICIT)
        EC_DOMPAR_ENC_OID).2.1 (by decide)).1⟩

end Botan

namespace Botan

/-- C8: the constructor `EC_PublicKey(D, P)` throws when the curve of `P`
differs from the curve of `D` (this test comes first, whatever the invariant
check would say), throws when `P` fails the invariant check, and returns only
when both tests pass; the key then holds `D`, `P` and the EXPLICIT form, so no
key built by it holds a point that fails the check. -/
theorem public_key_create_validates (A : PointArith) (D : EC_Domain_Params)
    (P : PointGFp) :
    (D.curve ≠ P.curve → EC_PublicKey.create A D P = .error .Invalid_Argument) ∧
    (D.curve = P.curve → A.check_invariants P = false →
      EC_PublicKey.create A D P = .error .Invalid_State) ∧
    (∀ key, EC_PublicKey.create A D P = .ok key ↔
      (D.curve = P.curve ∧ A.check_invariants P = true ∧
       key = { domain_params := D, public_key := P,
               domain_encoding := EC_DOMPAR_ENC_EXPLICIT })) ∧
    (∀ key, EC_PublicKey.create A D P = .ok key →
      A.check_invariants key.public_key = true) := by
  have hiff : ∀ key, EC_PublicKey.create A D P = .ok key ↔
      (D.curve = P.curve ∧ A.check_invariants P = true ∧
       key = { domain_params := D, public_key := P,
               domain_encoding := EC_DOMPAR_ENC_EXPLICIT }) := by
    intro key
    unfold EC_PublicKey.create
    by_cases hc : D.curve = P.curve
    · cases hi : A.check_invariants P
      · simp [hc, hi]
      · simp [hc, hi, eq_comm]
    · simp [hc]
  refine ⟨?_, ?_, hiff, ?_⟩
  · intro hc
    simp [EC_PublicKey.create, hc]
  · intro hc hi
    simp [EC_PublicKey.create, hc, hi]
  · intro key hkey
    obtain ⟨_, hi, hk⟩ := (hiff key).1 hkey
    rw [hk]; exact hi

/-- Witness for C8 on the curve modulo 17: a point of another curve and the
off-curve point `(5, 2)` are refused, the base point `(5, 1)` is accepted. -/
theorem public_key_create_validates_witness :
    EC_PublicKey.create affineArith dom17
        { curve := { p := 17, a := 2, b := 3 }, coords := some (5, 1) } =
      .error .Invalid_Argument ∧
    EC_PublicKey.create affineArith dom17 { curve := curve17, coords := some (5, 2) } =
      .error .Invalid_State ∧
    affineArith.check_invariants { curve := curve17, coords := some (5, 1) } = true :=
  ⟨(public_key_create_validates affineArith dom17
      { curve := { p := 17, a := 2, b := 3 }, coords := some (5, 1) }).1 (by decide),
   (public_key_create_validates affineArith dom17
      { curve := curve17, coords := some (5, 2) }).2.1 (by decide) (by decide),
   (public_key_create_validates affineArith dom17
      { curve := curve17, coords := some (5, 1) }).2.2.2
      { domain_params := dom17, public_key := { curve := curve17, coords := some (5, 1) },
        domain_encoding := EC_DOMPAR_ENC_EXPLICIT } (by rfl)⟩

/-- C9: the X.509 hook `key_bits` returns only if the point that `OS2ECP`
decodes from the bits over the current curve of the key passes the invariant
check, and the key then holds that point; when the decoded point fails the
check the hook throws Decoding_Error; when it passes, the hook returns. -/
theorem x509_decoder_key_bits_revalidates (A : PointArith) (key : EC_PublicKey)
    (bits : List byte) :
    ((EC_PublicKey.x509_decoder_key_bits A key bits).thrown = none →
      ∃ pt, A.OS2ECP bits key.domain_params.curve = .ok pt ∧
        A.check_invariants pt = true ∧
        (EC_PublicKey.x509_decoder_key_bits A key bits).state.public_key = pt ∧
        A.check_invariants
          (EC_PublicKey.x509_decoder_key_bits A key bits).state.public_key = true) ∧
    (∀ pt, A.OS2ECP bits key.domain_params.curve = .ok pt →
      A.check_invariants pt = false →
      (EC_PublicKey.x509_decoder_key_bits A key bits).thrown = some .Decoding_Error) ∧
    (∀ pt, A.OS2ECP bits key.domain_params.curve = .ok pt →
      A.check_invariants pt = true →
      EC_PublicKey.x509_decoder_key_bits A key bits =
        { state := { key with public_key := pt }, thrown := none }) := by
  unfold EC_PublicKey.x509_decoder_key_bits EC_PublicKey.X509_load_hook
  cases hos : A.OS2ECP bits key.domain_params.curve with
  | error e => simp
  | ok pt =>
    cases hi : A.check_invariants pt <;> simp [hi]

/-- Witness for C9 on the curve modulo 17: the bits `04 05 02` decode to the
off-curve point `(5, 2)` and the hook throws Decoding_Error; the bits
`04 05 01` decode to the base point and the hook stores it. -/
theorem x509_decoder_key_bits_revalidates_witness :
    (EC_PublicKey.x509_decoder_key_bits affineArith
        (EC_PublicKey.mk dom17 dom17.base_point EC_DOMPAR_ENC_EXPLICIT)
        [0x04, 0x05, 0x02]).thrown = some .Decoding_Error ∧
    EC_PublicKey.x509_decoder_key_bits affineArith
        (EC_PublicKey.mk dom17 { curve := curve17, coords := none } EC_DOMPAR_ENC_EXPLICIT)
        [0x04, 0x05, 0x01] =
      { state := EC_PublicKey.mk dom17 { curve := curve17, coords := some (5, 1) }
          EC_DOMPAR_ENC_EXPLICIT,
        thrown := none } :=
  ⟨(x509_decoder_key_bits_revalidates affineArith
      (EC_PublicKey.mk dom17 dom17.base_point EC_DOMPAR_ENC_EXPLICIT)
      [0x04, 0x05, 0x02]).2.1 { curve := curve17, coords := some (5, 2) } (by rfl) (by decide),
   (x509_decoder_key_bits_revalidates affineArith
      (EC_PublicKey.mk dom17 { curve := curve17, coords := none } EC_DOMPAR_ENC_EXPLICIT)
      [0x04, 0x05, 0x01]).2.2 { curve := curve17, coords := some (5, 1) } (by rfl) (by decide)⟩

/-- C10: for every EC private key `K` whose private scalar `k` is at least 1
(and shorter than 2^31 bytes, the sizes of the library being 32-bit), the
PKCS #8 decoder hook `key_bits` of a key over the same domain parameters,
applied to the bytes that the PKCS #8 encoder hook `key_bits` of `K` produces,
returns; the decoding key then holds private scalar `k` and the public point
base point times `k`, which is the point re-derived from the recovered scalar. -/
theorem pkcs8_key_bits_round_trip (A : PointArith) (K key : EC_PrivateKey)
    (hk : 1 ≤ K.private_key) (hsize : K.private_key.bytes < 2 ^ 31)
    (hdom : key.domain_params = K.domain_params) :
    (EC_PrivateKey.pkcs8_decoder_key_bits A key (K.pkcs8_encoder_key_bits)).thrown = none ∧
    (EC_PrivateKey.pkcs8_decoder_key_bits A key (K.pkcs8_encoder_key_bits)).state.private_key
      = K.private_key ∧
    (EC_PrivateKey.pkcs8_decoder_key_bits A key (K.pkcs8_encoder_key_bits)).state.public_key
      = A.mul K.domain_params.base_point K.private_key ∧
    (EC_PrivateKey.pkcs8_decoder_key_bits A key (K.pkcs8_encoder_key_bits)).state.public_key
      = A.mul
          (EC_PrivateKey.pkcs8_decoder_key_bits A key
            (K.pkcs8_encoder_key_bits)).state.domain_params.base_point
          (EC_PrivateKey.pkcs8_decoder_key_bits A key
            (K.pkcs8_encoder_key_bits)).state.private_key := by
  have hparse := decode_private_key_bits_encoder K.private_key hsize
  have hk0 : (0 : Int) ≤ K.private_key := Int.le_trans (by decide) hk
  have hdec := BigInt_decode_encode_1363 K.private_key hk0
  unfold EC_PrivateKey.pkcs8_decoder_key_bits EC_PrivateKey.pkcs8_encoder_key_bits
  rw [hparse]
  simp [EC_PrivateKey.PKCS8_load_hook, hdec, hdom]

/-- Witness for C10 on the curve modulo 17: the key with private scalar 7
encodes to `30 06 02 01 01 04 01 07`, and a key over the same domain
parameters that held scalar 0 and the point at infinity decodes it to scalar 7
and the point `(0, 6)`, seven times the base point. -/
theorem pkcs8_key_bits_round_trip_witness :
    EC_PrivateKey.pkcs8_encoder_key_bits
        { domain_params := dom17, public_key := { curve := curve17, coords := some (0, 6) },
          domain_encoding := EC_DOMPAR_ENC_EXPLICIT, private_key := 7 } =
      [0x30, 0x06, 0x02, 0x01, 0x01, 0x04, 0x01, 0x07] ∧
    EC_PrivateKey.pkcs8_decoder_key_bits affineArith
        { domain_params := dom17, public_key := { curve := curve17, coords := none },
          domain_encoding := EC_DOMPAR_ENC_EXPLICIT, private_key := 0 }
        [0x30, 0x06, 0x02, 0x01, 0x01, 0x04, 0x01, 0x07] =
      { state :=
          { domain_params := dom17, public_key := { curve := curve17, coords := some (0, 6) },
            domain_encoding := EC_DOMPAR_ENC_EXPLICIT, private_key := 7 },
        thrown := none } ∧
    (EC_PrivateKey.pkcs8_decoder_key_bits affineArith
        { domain_params := dom17, public_key := { curve := curve17, coords := none },
          domain_encoding := EC_DOMPAR_ENC_EXPLICIT, private_key := 0 }
        (EC_PrivateKey.pkcs8_encoder_key_bits
          { domain_params := dom17,
            public_key := { curve := curve17, coords := some (0, 6) },
            domain_encoding := EC_DOMPAR_ENC_EXPLICIT, private_key := 7 })).state.private_key
      = 7 :=
  ⟨by rfl, by rfl,
   (pkcs8_key_bits_round_trip affineArith
      { domain_params := dom17, public_key := { curve := curve17, coords := some (0, 6) },
        domain_encoding := EC_DOMPAR_ENC_EXPLICIT, private_key := 7 }
      { domain_params := dom17, public_key := { curve := curve17, coords := none },
        domain_encoding := EC_DOMPAR_ENC_EXPLICIT, private_key := 0 }
      (by decide) (by decide) rfl).2.1⟩

end Botan

namespace Botan

/-! ## Theorems: failure states and error kinds of the decode paths -/

/-- C11, as the claim states it, fails: an object that holds the text `A`
under PRINTABLE_STRING is asked to decode a BMP_STRING object with the
one-byte (odd-length) value `00`; the call throws Decoding_Error and leaves
the tag BMP_STRING and the raw bytes `00` in the object. -/
theorem decode_from_failure_overwrites :
    (ASN1_String.mk [0x41] [] PRINTABLE_STRING).decode_from
        (BER_Object.mk BMP_STRING UNIVERSAL [0x00]) =
      { state := ASN1_String.mk [0x41] [0x00] BMP_STRING,
        thrown := some .Decoding_Error } ∧
    ((ASN1_String.mk [0x41] [] PRINTABLE_STRING).decode_from
        (BER_Object.mk BMP_STRING UNIVERSAL [0x00])).state ≠
      ASN1_String.mk [0x41] [] PRINTABLE_STRING := by
  decide

/-- C11, amended: whenever `decode_from` fails, the canonical text is what it
was before the call; on an unrecognized tag the whole object is unchanged; on
a recognized tag the failure comes from the payload of a BMP_STRING or
UNIVERSAL_STRING object, and the tag and the retained raw bytes are then those
of the rejected object. -/
theorem decode_from_failure_state (self : ASN1_String) (obj : BER_Object)
    (e : ErrorKind) (hfail : (self.decode_from obj).thrown = some e) :
    (self.decode_from obj).state.m_utf8_str = self.m_utf8_str ∧
    (obj.type_tag ∉ string_tags → (self.decode_from obj).state = self) ∧
    (obj.type_tag ∈ string_tags →
      (obj.type_tag = BMP_STRING ∨ obj.type_tag = UNIVERSAL_STRING) ∧
      (self.decode_from obj).state.m_tag = obj.type_tag ∧
      (self.decode_from obj).state.m_data = obj.value) := by
  by_cases ht : obj.type_tag ∈ string_tags
  · have hassert := (assert_is_string_type_ok_iff obj.type_tag).2 ht
    simp only [ASN1_String.decode_from, hassert] at hfail ⊢
    by_cases hb : obj.type_tag = BMP_STRING
    · simp only [hb, if_true] at hfail ⊢
      cases hu : ucs2_to_utf8 obj.value with
      | error e' =>
        simp only [true_and, true_or, and_self, implies_true, and_true]
        intro h
        exact absurd (show BMP_STRING ∈ string_tags by decide) h
      | ok t => simp [hu] at hfail
    · simp only [hb, if_false] at hfail ⊢
      by_cases hu4 : obj.type_tag = UNIVERSAL_STRING
      · simp only [hu4, if_true] at hfail ⊢
        cases hu : ucs4_to_utf8 obj.value with
        | error e' =>
          simp only [true_and, or_true, and_self, implies_true, and_true]
          intro h
          exact absurd (show UNIVERSAL_STRING ∈ string_tags by decide) h
        | ok t => simp [hu] at hfail
      · simp [hu4] at hfail
  · have herr := assert_is_string_type_error obj.type_tag ht
    simp [ASN1_String.decode_from, herr, ht]

/-- Witness for C11 (amended): the failing call of the counterexample keeps
the text `A` and takes over tag and raw bytes of the rejected object. -/
theorem decode_from_failure_state_witness :
    ((ASN1_String.mk [0x41] [] PRINTABLE_STRING).decode_from
        (BER_Object.mk BMP_STRING UNIVERSAL [0x00])).thrown = some .Decoding_Error ∧
    ((ASN1_String.mk [0x41] [] PRINTABLE_STRING).decode_from
        (BER_Object.mk BMP_STRING UNIVERSAL [0x00])).state.m_utf8_str = [0x41] :=
  ⟨by decide,
   (decode_from_failure_state (ASN1_String.mk [0x41] [] PRINTABLE_STRING)
      (BER_Object.mk BMP_STRING UNIVERSAL [0x00]) .Decoding_Error (by decide)).1⟩

/-- C12, as the claim states it, fails: a key that holds private scalar 7 and
public point `(0, 6)` is given the payload `30 06 02 01 02 04 01 05` (version
2, scalar bytes `05`); the hook throws Decoding_Error and the key then holds
private scalar 5. -/
theorem pkcs8_decoder_key_bits_failure_stores_scalar :
    EC_PrivateKey.pkcs8_decoder_key_bits affineArith
        { domain_params := dom17, public_key := { curve := curve17, coords := some (0, 6) },
          domain_encoding := EC_DOMPAR_ENC_EXPLICIT, private_key := 7 }
        [0x30, 0x06, 0x02, 0x01, 0x02, 0x04, 0x01, 0x05] =
      { state :=
          { domain_params := dom17, public_key := { curve := curve17, coords := some (0, 6) },
            domain_encoding := EC_DOMPAR_ENC_EXPLICIT, private_key := 5 },
        thrown := some .Decoding_Error } ∧
    (5 : BigInt) ≠ 7 := by
  refine ⟨by rfl, by decide⟩

/-- C12, amended: whenever the PKCS #8 hook `key_bits` fails, the public point,
the domain parameters and the encoding form of the key are what they were
before the call; the private scalar too when the decoder chain could not read
the payload; when the chain read the payload, the version is not 1 and the
private scalar is the one decoded from the rejected payload. -/
theorem pkcs8_decoder_key_bits_failure_state (A : PointArith) (key : EC_PrivateKey)
    (bits : List byte) (e : ErrorKind)
    (hfail : (EC_PrivateKey.pkcs8_decoder_key_bits A key bits).thrown = some e) :
    (EC_PrivateKey.pkcs8_decoder_key_bits A key bits).state.public_key = key.public_key ∧
    (EC_PrivateKey.pkcs8_decoder_key_bits A key bits).state.toEC_PublicKey =
      key.toEC_PublicKey ∧
    (∀ e', decode_private_key_bits bits = .error e' →
      (EC_PrivateKey.pkcs8_decoder_key_bits A key bits).state = key) ∧
    (∀ version octstr_secret, decode_private_key_bits bits = .ok (version, octstr_secret) →
      version ≠ 1 ∧ e = .Decoding_Error ∧
      (EC_PrivateKey.pkcs8_decoder_key_bits A key bits).state.private_key =
        BigInt.decode octstr_secret) := by
  unfold EC_PrivateKey.pkcs8_decoder_key_bits at hfail ⊢
  cases hparse : decode_private_key_bits bits with
  | error e' => simp
  | ok r =>
    obtain ⟨version, octs⟩ := r
    rw [hparse] at hfail
    by_cases hv : version = 1
    · simp [hv] at hfail
    · simp only [ne_eq, hv, not_false_eq_true, if_true, Option.some.injEq] at hfail
      simp [hv, hfail.symm]

/-- Witness for C12 (amended): the failing call of the counterexample keeps the
public point `(0, 6)`. -/
theorem pkcs8_decoder_key_bits_failure_state_witness :
    (EC_PrivateKey.pkcs8_decoder_key_bits affineArith
        { domain_params := dom17, public_key := { curve := curve17, coords := some (0, 6) },
          domain_encoding := EC_DOMPAR_ENC_EXPLICIT, private_key := 7 }
        [0x30, 0x06, 0x02, 0x01, 0x02, 0x04, 0x01, 0x05]).thrown = some .Decoding_Error ∧
    (EC_PrivateKey.pkcs8_decoder_key_bits affineArith
        { domain_params := dom17, public_key := { curve := curve17, coords := some (0, 6) },
          domain_encoding := EC_DOMPAR_ENC_EXPLICIT, private_key := 7 }
        [0x30, 0x06, 0x02, 0x01, 0x02, 0x04, 0x01, 0x05]).state.public_key =
      { curve := curve17, coords := some (0, 6) } :=
  ⟨by rfl,
   (pkcs8_decoder_key_bits_failure_state affineArith
      { domain_params := dom17, public_key := { curve := curve17, coords := some (0, 6) },
        domain_encoding := EC_DOMPAR_ENC_EXPLICIT, private_key := 7 }
      [0x30, 0x06, 0x02, 0x01, 0x02, 0x04, 0x01, 0x05] .Decoding_Error (by rfl)).1⟩

/-- C13, as the claim states it, fails: `decode_from` on an object that
carries the tag SEQUENCE throws Invalid_Argument, which is not Decoding_Error. -/
theorem decode_from_sequence_error_kind :
    ((ASN1_String.mk [] [] UTF8_STRING).decode_from
        (BER_Object.mk SEQUENCE (UNIVERSAL ||| CONSTRUCTED) [])).thrown =
      some .Invalid_Argument ∧
    ((ASN1_String.mk [] [] UTF8_STRING).decode_from
        (BER_Object.mk SEQUENCE (UNIVERSAL ||| CONSTRUCTED) [])).thrown ≠
      some .Decoding_Error := by
  decide

/-- C13, amended: when `decode_from` is given an object whose tag is not one
of the eight string tags, the failure surfaces as Invalid_Argument, the error
of `assert_is_string_type`, and not as Decoding_Error. -/
theorem decode_from_unknown_tag_error_kind (self : ASN1_String) (obj : BER_Object)
    (ht : obj.type_tag ∉ string_tags) :
    (self.decode_from obj).thrown = some .Invalid_Argument ∧
    (self.decode_from obj).thrown ≠ some .Decoding_Error ∧
    assert_is_string_type obj.type_tag = .error .Invalid_Argument := by
  have herr := assert_is_string_type_error obj.type_tag ht
  simp [ASN1_String.decode_from, herr]

/-- Witness for C13 (amended): the tag SEQUENCE. -/
theorem decode_from_unknown_tag_error_kind_witness :
    SEQUENCE ∉ string_tags ∧
    ((ASN1_String.mk [] [] UTF8_STRING).decode_from
        (BER_Object.mk SEQUENCE (UNIVERSAL ||| CONSTRUCTED) [])).thrown =
      some .Invalid_Argument :=
  ⟨by decide,
   (decode_from_unknown_tag_error_kind (ASN1_String.mk [] [] UTF8_STRING)
      (BER_Object.mk SEQUENCE (UNIVERSAL ||| CONSTRUCTED) []) (by decide)).1⟩

theorem encode_into_fresh (s : ASN1_String) (hfresh : s.m_data = [])
    (encoder : DER_Encoder) :
    s.encode_into encoder =
      encoder ++ [{ type_tag := s.m_tag, class_tag := UNIVERSAL, value := s.m_utf8_str }] := by
  simp [ASN1_String.encode_into, hfresh, DER_Encoder.add_object, ASN1_String.tagging]

/-- C14, the code at the failing input: the freshly constructed
`ASN1_String("A", BMP_STRING)` is emitted with the one value byte `41`, the
raw text, and not with the two bytes `00 41` (which are the text `A` in 16-bit
units: `ucs2_to_utf8` maps them to `A`); `decode_from` rejects the emitted
object. -/
theorem encode_into_fresh_bmp_raw_text :
    ASN1_String.create [0x41] BMP_STRING = .ok (ASN1_String.mk [0x41] [] BMP_STRING) ∧
    (ASN1_String.mk [0x41] [] BMP_STRING).encode_into [] =
      [BER_Object.mk BMP_STRING UNIVERSAL [0x41]] ∧
    (ASN1_String.mk [0x41] [] BMP_STRING).encode_into [] ≠
      [BER_Object.mk BMP_STRING UNIVERSAL [0x00, 0x41]] ∧
    ucs2_to_utf8 [0x00, 0x41] = .ok [0x41] ∧
    ((ASN1_String.mk [] [] UTF8_STRING).decode_from
        (BER_Object.mk BMP_STRING UNIVERSAL [0x41])).thrown = some .Decoding_Error := by
  refine ⟨by rfl, by decide, by decide, by rfl, by decide⟩

end Botan

namespace Botan

/-! ## Theorems: private_value, key generation, tag invariant, round trips -/

/-- C15, as the claim states it, fails: the payload `30 06 02 01 01 04 01 00`
(version 1, scalar bytes `00`) is decoded successfully by the PKCS #8 hook
`key_bits`, the key then holds private scalar 0, and `private_value` throws
Invalid_State on it. -/
theorem private_value_after_zero_scalar_decode :
    (EC_PrivateKey.pkcs8_decoder_key_bits affineArith
        { domain_params := dom17, public_key := dom17.base_point,
          domain_encoding := EC_DOMPAR_ENC_EXPLICIT, private_key := 7 }
        [0x30, 0x06, 0x02, 0x01, 0x01, 0x04, 0x01, 0x00]).thrown = none ∧
    (EC_PrivateKey.pkcs8_decoder_key_bits affineArith
        { domain_params := dom17, public_key := dom17.base_point,
          domain_encoding := EC_DOMPAR_ENC_EXPLICIT, private_key := 7 }
        [0x30, 0x06, 0x02, 0x01, 0x01, 0x04, 0x01, 0x00]).state.private_key = 0 ∧
    (EC_PrivateKey.pkcs8_decoder_key_bits affineArith
        { domain_params := dom17, public_key := dom17.base_point,
          domain_encoding := EC_DOMPAR_ENC_EXPLICIT, private_key := 7 }
        [0x30, 0x06, 0x02, 0x01, 0x01, 0x04, 0x01, 0x00]).state.private_value =
      .error .Invalid_State := by
  refine ⟨by rfl, by rfl, by rfl⟩

/-- C15, amended: `private_value` throws Invalid_State exactly when the stored
private scalar is zero and otherwise returns the stored scalar unchanged; on a
key whose PKCS #8 `key_bits` decode has returned, it succeeds exactly when the
scalar decoded from the payload is not zero. -/
theorem private_value_exact :
    (∀ key : EC_PrivateKey, key.private_value = .error .Invalid_State ↔ key.private_key = 0) ∧
    (∀ key : EC_PrivateKey, key.private_key ≠ 0 → key.private_value = .ok key.private_key) ∧
    (∀ (A : PointArith) (key : EC_PrivateKey) (bits : List byte),
      (EC_PrivateKey.pkcs8_decoder_key_bits A key bits).thrown = none →
      ∃ octstr_secret, decode_private_key_bits bits = .ok (1, octstr_secret) ∧
        (EC_PrivateKey.pkcs8_decoder_key_bits A key bits).state.private_key =
          BigInt.decode octstr_secret ∧
        ((EC_PrivateKey.pkcs8_decoder_key_bits A key bits).state.private_value =
            .ok (BigInt.decode octstr_secret) ↔ BigInt.decode octstr_secret ≠ 0)) := by
  refine ⟨?_, ?_, ?_⟩
  · intro key
    unfold EC_PrivateKey.private_value
    by_cases h : key.private_key = 0 <;> simp [h]
  · intro key h
    simp [EC_PrivateKey.private_value, h]
  · intro A key bits hok
    unfold EC_PrivateKey.pkcs8_decoder_key_bits at hok ⊢
    cases hparse : decode_private_key_bits bits with
    | error e' => simp [hparse] at hok
    | ok r =>
      obtain ⟨version, octs⟩ := r
      rw [hparse] at hok
      by_cases hv : version = 1
      · subst hv
        refine ⟨octs, rfl, ?_, ?_⟩
        · simp [EC_PrivateKey.PKCS8_load_hook]
        · by_cases h0 : BigInt.decode octs = 0 <;>
            simp [EC_PrivateKey.PKCS8_load_hook, EC_PrivateKey.private_value, h0]
      · simp [hv] at hok

/-- Witness for C15 (amended): the payload `30 06 02 01 01 04 01 07` decodes to
scalar 7, which `private_value` returns. -/
theorem private_value_exact_witness :
    (EC_PrivateKey.mk (EC_PublicKey.mk dom17 dom17.base_point EC_DOMPAR_ENC_EXPLICIT)
        7).private_value = .ok 7 ∧
    ∃ octstr_secret,
      decode_private_key_bits [0x30, 0x06, 0x02, 0x01, 0x01, 0x04, 0x01, 0x07] =
        .ok (1, octstr_secret) ∧
      (EC_PrivateKey.pkcs8_decoder_key_bits affineArith
          (EC_PrivateKey.mk (EC_PublicKey.mk dom17 dom17.base_point EC_DOMPAR_ENC_EXPLICIT) 0)
          [0x30, 0x06, 0x02, 0x01, 0x01, 0x04, 0x01, 0x07]).state.private_key =
        BigInt.decode octstr_secret ∧
      ((EC_PrivateKey.pkcs8_decoder_key_bits affineArith
          (EC_PrivateKey.mk (EC_PublicKey.mk dom17 dom17.base_point EC_DOMPAR_ENC_EXPLICIT) 0)
          [0x30, 0x06, 0x02, 0x01, 0x01, 0x04, 0x01, 0x07]).state.private_value =
          .ok (BigInt.decode octstr_secret) ↔ BigInt.decode octstr_secret ≠ 0) :=
  ⟨private_value_exact.2.1
      (EC_PrivateKey.mk (EC_PublicKey.mk dom17 dom17.base_point EC_DOMPAR_ENC_EXPLICIT) 7)
      (by decide),
   private_value_exact.2.2 affineArith
      (EC_PrivateKey.mk (EC_PublicKey.mk dom17 dom17.base_point EC_DOMPAR_ENC_EXPLICIT) 0)
      [0x30, 0x06, 0x02, 0x01, 0x01, 0x04, 0x01, 0x07] (by rfl)⟩

/-- C16: the constructor `EC_PrivateKey(rng, D)` takes as private scalar the
value that `random_integer(rng, 1, order)` draws, computes the public point as
base point times that scalar, throws Internal_Error exactly when that point
fails the invariant check, and throws nothing else; a key that it returns
holds `D`, a point that passes the check, and public = base point times
private. When the random source keeps its range contract (a value in
`[min, max)`) and the order exceeds 1, the scalar lies in `[1, order - 1]`. -/
theorem generate_key_exact (A : PointArith) (random_integer : BigInt → BigInt → BigInt)
    (D : EC_Domain_Params) :
    (A.check_invariants (A.mul D.base_point (random_integer 1 D.order)) = true →
      EC_PrivateKey.generate A random_integer D =
        .ok { domain_params := D,
              public_key := A.mul D.base_point (random_integer 1 D.order),
              domain_encoding := EC_DOMPAR_ENC_EXPLICIT,
              private_key := random_integer 1 D.order }) ∧
    (EC_PrivateKey.generate A random_integer D = .error .Internal_Error ↔
      A.check_invariants (A.mul D.base_point (random_integer 1 D.order)) = false) ∧
    (∀ e, EC_PrivateKey.generate A random_integer D = .error e → e = .Internal_Error) ∧
    (∀ key, EC_PrivateKey.generate A random_integer D = .ok key →
      key.private_key = random_integer 1 D.order ∧
      key.public_key = A.mul D.base_point key.private_key ∧
      key.public_key = A.mul key.domain_params.base_point key.private_key ∧
      A.check_invariants key.public_key = true ∧
      key.domain_params = D) ∧
    ((∀ min max : BigInt, min < max →
        min ≤ random_integer min max ∧ random_integer min max < max) →
      1 < D.order →
      ∀ key, EC_PrivateKey.generate A random_integer D = .ok key →
        1 ≤ key.private_key ∧ key.private_key ≤ D.order - 1) := by
  have hgen : ∀ key, EC_PrivateKey.generate A random_integer D = .ok key →
      key.private_key = random_integer 1 D.order ∧
      key.public_key = A.mul D.base_point key.private_key ∧
      key.public_key = A.mul key.domain_params.base_point key.private_key ∧
      A.check_invariants key.public_key = true ∧
      key.domain_params = D := by
    intro key hkey
    unfold EC_PrivateKey.generate at hkey
    cases hi : A.check_invariants (A.mul D.base_point (random_integer 1 D.order))
    · simp [hi] at hkey
    · simp only [hi, if_true, Except.ok.injEq] at hkey
      subst hkey
      exact ⟨rfl, rfl, rfl, hi, rfl⟩
  refine ⟨?_, ?_, ?_, hgen, ?_⟩
  · intro hi
    simp [EC_PrivateKey.generate, hi]
  · unfold EC_PrivateKey.generate
    cases hi : A.check_invariants (A.mul D.base_point (random_integer 1 D.order)) <;>
      simp [hi]
  · intro e he
    unfold EC_PrivateKey.generate at he
    cases hi : A.check_invariants (A.mul D.base_point (random_integer 1 D.order))
    · simp only [hi, Bool.false_eq_true, if_false, Except.error.injEq] at he
      exact he.symm
    · simp [hi] at he
  · intro hrange hord key hkey
    obtain ⟨hpriv, _⟩ := hgen key hkey
    have := hrange 1 D.order hord
    rw [hpriv]
    constructor
    · exact this.1
    · exact Int.le_sub_one_of_lt this.2

/-- Witness for C16 on the curve modulo 17, with a random source that draws 7
(and `min` outside the range 1..19): the generated key holds scalar 7 and the
point `(0, 6)`, and 7 lies in `[1, 18]`. -/
theorem generate_key_exact_witness :
    EC_PrivateKey.generate affineArith
        (fun min max => if min ≤ 7 ∧ 7 < max then 7 else min) dom17 =
      .ok { domain_params := dom17,
            public_key := affineArith.mul dom17.base_point
              ((fun min max : BigInt => if min ≤ 7 ∧ 7 < max then 7 else min) 1 dom17.order),
            domain_encoding := EC_DOMPAR_ENC_EXPLICIT,
            private_key := (fun min max : BigInt => if min ≤ 7 ∧ 7 < max then 7 else min)
              1 dom17.order } ∧
    (∀ key, EC_PrivateKey.generate affineArith
        (fun min max => if min ≤ 7 ∧ 7 < max then 7 else min) dom17 = .ok key →
        1 ≤ key.private_key ∧ key.private_key ≤ dom17.order - 1) :=
  ⟨(generate_key_exact affineArith (fun min max => if min ≤ 7 ∧ 7 < max then 7 else min)
      dom17).1 (by decide),
   (generate_key_exact affineArith (fun min max => if min ≤ 7 ∧ 7 < max then 7 else min)
      dom17).2.2.2.2
      (by
        intro min max hlt
        split_ifs with h
        · exact h
        · exact ⟨Int.le_refl _, hlt⟩)
      (by decide)⟩

end Botan

namespace Botan

theorem choose_encoding_mem_string_tags (s : List byte) :
    choose_encoding s ∈ string_tags := by
  rw [choose_encoding_eq_all]
  split <;> decide

theorem create_ok_iff (str : List byte) (t : ASN1_Tag) (x : ASN1_String) :
    ASN1_String.create str t = .ok x ↔
      ((if t = DIRECTORY_STRING then choose_encoding str else t) ∈ string_tags ∧
       x = { m_utf8_str := str, m_data := [],
             m_tag := if t = DIRECTORY_STRING then choose_encoding str else t }) := by
  unfold ASN1_String.create
  by_cases hm : (if t = DIRECTORY_STRING then choose_encoding str else t) ∈ string_tags
  · have := (assert_is_string_type_ok_iff _).2 hm
    simp [this, hm, eq_comm]
  · have := assert_is_string_type_error _ hm
    simp [this, hm]

theorem decode_from_byte_tag (self : ASN1_String) (obj : BER_Object)
    (ht : obj.type_tag ∈ string_tags) (hb : obj.type_tag ≠ BMP_STRING)
    (hu : obj.type_tag ≠ UNIVERSAL_STRING) :
    self.decode_from obj =
      { state := { m_utf8_str := obj.value, m_data := obj.value, m_tag := obj.type_tag },
        thrown := none } := by
  have hassert := (assert_is_string_type_ok_iff obj.type_tag).2 ht
  simp [ASN1_String.decode_from, hassert, hb, hu, ASN1.to_string]

/-- C17: the stored tag is one of the eight string tags, and never the
DIRECTORY_STRING sentinel, after the one-argument constructor, after every
successful two-argument construction (with the sentinel the stored tag is the
result of `choose_encoding`, and the construction succeeds) and after every
successful `decode_from`; the result of `choose_encoding` always passes
`assert_is_string_type`. -/
theorem string_tag_invariant :
    DIRECTORY_STRING ∉ string_tags ∧
    (∀ str : List byte, (ASN1_String.create_auto str).m_tag ∈ string_tags) ∧
    (∀ (str : List byte) (t : ASN1_Tag) (x : ASN1_String),
      ASN1_String.create str t = .ok x →
        x.m_tag ∈ string_tags ∧ x.m_tag ≠ DIRECTORY_STRING) ∧
    (∀ str : List byte, ∃ x, ASN1_String.create str DIRECTORY_STRING = .ok x ∧
        x.m_tag = choose_encoding str) ∧
    (∀ (self : ASN1_String) (obj : BER_Object), (self.decode_from obj).thrown = none →
        (self.decode_from obj).state.m_tag ∈ string_tags ∧
        (self.decode_from obj).state.m_tag ≠ DIRECTORY_STRING) ∧
    (∀ str : List byte, assert_is_string_type (choose_encoding str) = .ok ()) := by
  have hsent : DIRECTORY_STRING ∉ string_tags := by decide
  have hne : ∀ t : ASN1_Tag, t ∈ string_tags → t ≠ DIRECTORY_STRING := by
    intro t ht h
    exact hsent (h ▸ ht)
  refine ⟨hsent, ?_, ?_, ?_, ?_, ?_⟩
  · intro str
    exact choose_encoding_mem_string_tags str
  · intro str t x hx
    obtain ⟨hm, hx⟩ := (create_ok_iff str t x).1 hx
    subst hx
    exact ⟨hm, hne _ hm⟩
  · intro str
    refine ⟨{ m_utf8_str := str, m_data := [], m_tag := choose_encoding str }, ?_, rfl⟩
    rw [create_ok_iff]
    simp [choose_encoding_mem_string_tags]
  · intro self obj hok
    have ht : obj.type_tag ∈ string_tags := by
      by_contra hn
      simp [ASN1_String.decode_from, assert_is_string_type_error obj.type_tag hn] at hok
    have htag : (self.decode_from obj).state.m_tag = obj.type_tag := by
      have hassert := (assert_is_string_type_ok_iff obj.type_tag).2 ht
      simp only [ASN1_String.decode_from, hassert]
      split
      · split <;> rfl
      · split
        · split <;> rfl
        · rfl
    rw [htag]
    exact ⟨ht, hne _ ht⟩
  · intro str
    exact (assert_is_string_type_ok_iff _).2 (choose_encoding_mem_string_tags str)

/-- Witness for C17: the two-argument constructor with IA5_STRING, and a
successful decode of a VISIBLE_STRING object into an object that held
UTF8_STRING. -/
theorem string_tag_invariant_witness :
    (ASN1_String.mk [0x41] [] IA5_STRING).m_tag ∈ string_tags ∧
    ((ASN1_String.mk [] [] UTF8_STRING).decode_from
        (BER_Object.mk VISIBLE_STRING UNIVERSAL [0x41])).state.m_tag ∈ string_tags :=
  ⟨(string_tag_invariant.2.2.1 [0x41] IA5_STRING (ASN1_String.mk [0x41] [] IA5_STRING)
      (by rfl)).1,
   (string_tag_invariant.2.2.2.2.1 (ASN1_String.mk [] [] UTF8_STRING)
      (BER_Object.mk VISIBLE_STRING UNIVERSAL [0x41]) (by decide)).1⟩

/-- C18: for every text `s` and every string tag `t` other than BMP_STRING and
UNIVERSAL_STRING, the construction `ASN1_String(s, t)` succeeds, `encode_into`
emits one object, and `decode_from` (into any object) decodes that object
successfully to canonical text `s` and tag `t`; with the DIRECTORY_STRING
sentinel and with the one-argument constructor the same holds with
`t = choose_encoding(s)`. -/
theorem construct_encode_decode_round_trip :
    (∀ (s : List byte) (t : ASN1_Tag) (self : ASN1_String),
      t ∈ string_tags → t ≠ BMP_STRING → t ≠ UNIVERSAL_STRING →
      ∃ x o, ASN1_String.create s t = .ok x ∧ x.encode_into [] = [o] ∧
        (self.decode_from o).thrown = none ∧
        (self.decode_from o).state.m_utf8_str = s ∧
        (self.decode_from o).state.m_tag = t) ∧
    (∀ (s : List byte) (self : ASN1_String),
      ∃ x o, ASN1_String.create s DIRECTORY_STRING = .ok x ∧ x.encode_into [] = [o] ∧
        (self.decode_from o).thrown = none ∧
        (self.decode_from o).state.m_utf8_str = s ∧
        (self.decode_from o).state.m_tag = choose_encoding s) ∧
    (∀ (s : List byte) (self : ASN1_String),
      ∃ o, (ASN1_String.create_auto s).encode_into [] = [o] ∧
        (self.decode_from o).thrown = none ∧
        (self.decode_from o).state.m_utf8_str = s ∧
        (self.decode_from o).state.m_tag = choose_encoding s) := by
  have hce : ∀ s : List byte, choose_encoding s ∈ string_tags ∧
      choose_encoding s ≠ BMP_STRING ∧ choose_encoding s ≠ UNIVERSAL_STRING := by
    intro s
    rw [choose_encoding_eq_all]
    split <;> decide
  have key : ∀ (s : List byte) (t : ASN1_Tag) (self : ASN1_String),
      t ∈ string_tags → t ≠ BMP_STRING → t ≠ UNIVERSAL_STRING →
      (ASN1_String.mk s [] t).encode_into [] = [BER_Object.mk t UNIVERSAL s] ∧
      (self.decode_from (BER_Object.mk t UNIVERSAL s)).thrown = none ∧
      (self.decode_from (BER_Object.mk t UNIVERSAL s)).state.m_utf8_str = s ∧
      (self.decode_from (BER_Object.mk t UNIVERSAL s)).state.m_tag = t := by
    intro s t self ht hb hu
    have henc := encode_into_fresh (ASN1_String.mk s [] t) rfl []
    have hdec := decode_from_byte_tag self (BER_Object.mk t UNIVERSAL s) ht hb hu
    rw [hdec]
    exact ⟨by simpa using henc, rfl, rfl, rfl⟩
  refine ⟨?_, ?_, ?_⟩
  · intro s t self ht hb hu
    have hd : t ≠ DIRECTORY_STRING := by
      intro h; subst h; exact absurd ht (by decide)
    refine ⟨ASN1_String.mk s [] t, BER_Object.mk t UNIVERSAL s, ?_, key s t self ht hb hu⟩
    rw [create_ok_iff]
    simp [hd, ht]
  · intro s self
    obtain ⟨h1, h2, h3⟩ := hce s
    refine ⟨ASN1_String.mk s [] (choose_encoding s),
      BER_Object.mk (choose_encoding s) UNIVERSAL s, ?_, key s _ self h1 h2 h3⟩
    rw [create_ok_iff]
    simp [h1]
  · intro s self
    obtain ⟨h1, h2, h3⟩ := hce s
    exact ⟨BER_Object.mk (choose_encoding s) UNIVERSAL s, key s _ self h1 h2 h3⟩

/-- Witness for C18: the text `A` under IA5_STRING, decoded into an object
that held a BMP_STRING value. -/
theorem construct_encode_decode_round_trip_witness :
    ∃ x o, ASN1_String.create [0x41] IA5_STRING = .ok x ∧ x.encode_into [] = [o] ∧
      ((ASN1_String.mk [0x42] [0x00, 0x42] BMP_STRING).decode_from o).thrown = none ∧
      ((ASN1_String.mk [0x42] [0x00, 0x42] BMP_STRING).decode_from o).state.m_utf8_str
        = [0x41] ∧
      ((ASN1_String.mk [0x42] [0x00, 0x42] BMP_STRING).decode_from o).state.m_tag
        = IA5_STRING :=
  construct_encode_decode_round_trip.1 [0x41] IA5_STRING
    (ASN1_String.mk [0x42] [0x00, 0x42] BMP_STRING) (by decide) (by decide) (by decide)

/-- C19: `decode_from` does not look at the class of the object: two objects
with the same type tag and value bytes give the same outcome (same exception or
none, same tag, text and raw bytes afterwards); `encode_into` always emits
class UNIVERSAL under the stored tag; so an object of any class whose
UNIVERSAL twin is accepted is accepted too and is re-encoded under class
UNIVERSAL, and every object with a byte-oriented string tag is accepted. -/
theorem decode_from_class_insensitive :
    (∀ (self : ASN1_String) (o1 o2 : BER_Object),
      o1.type_tag = o2.type_tag → o1.value = o2.value →
      self.decode_from o1 = self.decode_from o2) ∧
    (∀ (s : ASN1_String) (encoder : DER_Encoder),
      ∃ o, s.encode_into encoder = encoder ++ [o] ∧ o.class_tag = UNIVERSAL ∧
        o.type_tag = s.m_tag) ∧
    (∀ (self : ASN1_String) (tag cls : ASN1_Tag) (value : List byte),
      (self.decode_from (BER_Object.mk tag UNIVERSAL value)).thrown = none →
      (self.decode_from (BER_Object.mk tag cls value)).thrown = none ∧
      (self.decode_from (BER_Object.mk tag cls value)).state.m_tag = tag ∧
      (self.decode_from (BER_Object.mk tag cls value)).state.m_data = value) ∧
    (∀ (self : ASN1_String) (tag cls : ASN1_Tag) (value : List byte),
      tag ∈ string_tags → tag ≠ BMP_STRING → tag ≠ UNIVERSAL_STRING →
      (self.decode_from (BER_Object.mk tag cls value)).thrown = none) := by
  have hsame : ∀ (self : ASN1_String) (o1 o2 : BER_Object),
      o1.type_tag = o2.type_tag → o1.value = o2.value →
      self.decode_from o1 = self.decode_from o2 := by
    intro self o1 o2 ht hv
    simp only [ASN1_String.decode_from, ASN1.to_string, ht, hv]
  refine ⟨hsame, ?_, ?_, ?_⟩
  · intro s encoder
    unfold ASN1_String.encode_into DER_Encoder.add_object ASN1_String.tagging
    split
    · exact ⟨_, rfl, rfl, rfl⟩
    · exact ⟨_, rfl, rfl, rfl⟩
  · intro self tag cls value hok
    rw [hsame self (BER_Object.mk tag cls value) (BER_Object.mk tag UNIVERSAL value) rfl rfl]
    refine ⟨hok, ?_⟩
    have ht : tag ∈ string_tags := by
      by_contra hn
      simp [ASN1_String.decode_from, assert_is_string_type_error tag hn] at hok
    have hassert := (assert_is_string_type_ok_iff tag).2 ht
    simp only [ASN1_String.decode_from, hassert]
    split
    · split <;> exact ⟨rfl, rfl⟩
    · split
      · split <;> exact ⟨rfl, rfl⟩
      · exact ⟨rfl, rfl⟩
  · intro self tag cls value ht hb hu
    rw [decode_from_byte_tag self (BER_Object.mk tag cls value) ht hb hu]

/-- Witness for C19: a PRINTABLE_STRING object of class CONTEXT_SPECIFIC is
decoded like its UNIVERSAL twin. -/
theorem decode_from_class_insensitive_witness :
    (ASN1_String.mk [] [] UTF8_STRING).decode_from
        (BER_Object.mk PRINTABLE_STRING CONTEXT_SPECIFIC [0x41]) =
      (ASN1_String.mk [] [] UTF8_STRING).decode_from
        (BER_Object.mk PRINTABLE_STRING UNIVERSAL [0x41]) ∧
    ((ASN1_String.mk [] [] UTF8_STRING).decode_from
        (BER_Object.mk PRINTABLE_STRING CONTEXT_SPECIFIC [0x41])).thrown = none :=
  ⟨decode_from_class_insensitive.1 (ASN1_String.mk [] [] UTF8_STRING)
      (BER_Object.mk PRINTABLE_STRING CONTEXT_SPECIFIC [0x41])
      (BER_Object.mk PRINTABLE_STRING UNIVERSAL [0x41]) rfl rfl,
   decode_from_class_insensitive.2.2.2 (ASN1_String.mk [] [] UTF8_STRING)
      PRINTABLE_STRING CONTEXT_SPECIFIC [0x41] (by decide) (by decide) (by decide)⟩

end Botan

namespace Botan

/-! ## Theorems: doc/examples/factor.cpp -/

theorem gcd_nonneg (a b : Int) : 0 ≤ gcd a b := Int.ofNat_nonneg _

theorem gcd_dvd_left (a b : Int) : gcd a b ∣ a := Int.gcd_dvd_left

theorem gcd_dvd_right (a b : Int) : gcd a b ∣ b := Int.gcd_dvd_right

theorem gcd_pos_of_pos_right (a b : Int) (hb : 1 ≤ b) : 1 ≤ gcd a b := by
  have h : 0 < Int.gcd a b := Int.gcd_pos_of_ne_zero_right a (by omega)
  show (1 : Int) ≤ ((Int.gcd a b : Nat) : Int)
  exact_mod_cast h

theorem half_of_even (n : Int) (hn : 1 ≤ n) (heven : n % 2 = 0) :
    1 ≤ n / 2 ∧ 2 * (n / 2) = n := by
  omega

theorem div_ge_one_of_dvd (n a : Int) (hn : 1 ≤ n) (ha : 1 ≤ a) (hdvd : a ∣ n) :
    1 ≤ n / a ∧ a * (n / a) = n := by
  have hmul : a * (n / a) = n := Int.mul_ediv_cancel' hdvd
  refine ⟨?_, hmul⟩
  by_contra hlt
  have h0 : n / a ≤ 0 := by omega
  have : a * (n / a) ≤ 0 := Int.mul_nonpos_of_nonneg_of_nonpos (by omega) h0
  omega

theorem rho_loop_spec (n : Int) (fuel : Nat) :
    ∀ (x y : Int) (i k : Nat) (d : Int), rho_loop n fuel x y i k = some d →
      0 ≤ d ∧ (d ≠ 0 → d ∣ n ∧ d ≠ 1 ∧ d ≠ n) := by
  induction fuel with
  | zero => intro x y i k d h; simp [rho_loop] at h
  | succ fuel ih =>
    intro x y i k d h
    simp only [rho_loop] at h
    split at h
    · rename_i hd
      injection h with h
      subst h
      exact ⟨gcd_nonneg _ _, fun _ => ⟨gcd_dvd_right _ _, hd.1, hd.2⟩⟩
    · split at h
      · injection h with h
        subst h
        exact ⟨Int.le_refl 0, fun h0 => absurd rfl h0⟩
      · split at h
        · exact ih _ _ _ _ d h
        · exact ih _ _ _ _ d h

theorem rho_loop_returns (n : Int) (fuel : Nat) :
    ∀ (x y : Int) (i k : Nat), i < 65536 → 65536 ≤ i + fuel →
      ∃ d, rho_loop n fuel x y i k = some d := by
  induction fuel with
  | zero => intro x y i k hi hf; omega
  | succ fuel ih =>
    intro x y i k hi hf
    simp only [rho_loop]
    split
    · exact ⟨_, rfl⟩
    · split
      · exact ⟨_, rfl⟩
      · rename_i hne
        split
        · exact ih _ _ _ _ (by omega) (by omega)
        · exact ih _ _ _ _ (by omega) (by omega)

theorem rho_returns (n x0 : Int) : ∃ d, rho n x0 = some d :=
  rho_loop_returns n 65536 x0 x0 1 2 (by decide) (by decide)

theorem remove_twos_spec (fuel : Nat) :
    ∀ (n : Int) (fs : List Int) (n1 : Int) (fs1 : List Int), 1 ≤ n →
      remove_twos fuel n fs = some (n1, fs1) → fs1.prod * n1 = fs.prod * n ∧ 1 ≤ n1 := by
  induction fuel with
  | zero => intro n fs n1 fs1 _ h; simp [remove_twos] at h
  | succ fuel ih =>
    intro n fs n1 fs1 hn h
    simp only [remove_twos] at h
    split at h
    · rename_i heven
      obtain ⟨hhalf, hdouble⟩ := half_of_even n hn heven
      obtain ⟨hprod, hpos⟩ := ih (n / 2) (fs ++ [2]) n1 fs1 hhalf h
      refine ⟨?_, hpos⟩
      rw [hprod, List.prod_append, List.prod_singleton, mul_assoc, hdouble]
    · simp only [Option.some.injEq, Prod.mk.injEq] at h
      obtain ⟨h1, h2⟩ := h
      subst h1; subst h2
      exact ⟨rfl, hn⟩

theorem count_occurs_zero (fuel : Nat) :
    ∀ (p : Int) (occurs : Nat), count_occurs fuel 0 p occurs = none := by
  induction fuel with
  | zero => intro p occurs; rfl
  | succ fuel ih =>
    intro p occurs
    simp only [count_occurs]
    rw [if_pos (by decide)]
    simp [ih]

theorem count_occurs_spec (fuel : Nat) (x p : Int) (occurs : Nat)
    (hx : 1 ≤ x) (hp : 0 ≤ p) (hdvd : x ∣ p)
    (h : count_occurs fuel x p 0 = some occurs) :
    (List.replicate occurs p).prod = x := by
  cases fuel with
  | zero => simp [count_occurs] at h
  | succ fuel =>
    simp only [count_occurs] at h
    by_cases hx1 : x = 1
    · subst hx1
      simp at h
      subst h
      simp
    · rw [if_pos hx1] at h
      by_cases hp0 : p = 0
      · subst hp0
        simp [Int.ediv_zero, count_occurs_zero] at h
      · have hle : x ≤ p := Int.le_of_dvd (by omega) hdvd
        by_cases hxp : x = p
        · subst hxp
          have hdiv : x / x = 1 := Int.ediv_self (by omega)
          rw [hdiv] at h
          cases fuel with
          | zero => simp [count_occurs] at h
          | succ fuel =>
            simp [count_occurs] at h
            subst h
            simp
        · have hlt : x < p := by omega
          have hdiv : x / p = 0 := Int.ediv_eq_zero_of_lt (by omega) hlt
          rw [hdiv, count_occurs_zero] at h
          cases h

theorem small_primes_loop_spec (fuel : Nat) (ps : List Nat) :
    ∀ (n : Int) (fs : List Int) (n1 : Int) (fs1 : List Int), 1 ≤ n →
      small_primes_loop fuel ps n fs = some (n1, fs1) →
      fs1.prod * n1 = fs.prod * n ∧ 1 ≤ n1 := by
  induction ps with
  | nil =>
    intro n fs n1 fs1 hn h
    simp only [small_primes_loop, Option.some.injEq, Prod.mk.injEq] at h
    obtain ⟨h1, h2⟩ := h
    subst h1; subst h2
    exact ⟨rfl, hn⟩
  | cons p rest ih =>
    intro n fs n1 fs1 hn h
    simp only [small_primes_loop] at h
    split at h
    · simp only [Option.some.injEq, Prod.mk.injEq] at h
      obtain ⟨h1, h2⟩ := h
      subst h1; subst h2
      exact ⟨rfl, hn⟩
    · split at h
      · rename_i hx1
        split at h
        · cases h
        · rename_i occurs hocc
          have hxpos : 1 ≤ gcd n (p : Int) := by
            have h0 := gcd_nonneg n (p : Int)
            have hne : gcd n (p : Int) ≠ 0 := by
              intro hz
              have hd : (0 : Int) ∣ n := hz ▸ gcd_dvd_left n (p : Int)
              have hn0 : n = 0 := Int.zero_dvd.1 hd
              rw [hn0] at hn
              exact absurd hn (by decide)
            exact lt_of_le_of_ne h0 (Ne.symm hne)
          have hrep := count_occurs_spec fuel (gcd n (p : Int)) (p : Int) occurs hxpos
            (Int.ofNat_nonneg p) (gcd_dvd_right _ _) hocc
          obtain ⟨hq, hmul⟩ := div_ge_one_of_dvd n (gcd n (p : Int)) hn hxpos
            (gcd_dvd_left _ _)
          obtain ⟨hprod, hpos⟩ := ih _ _ n1 fs1 hq h
          refine ⟨?_, hpos⟩
          rw [hprod, List.prod_append, hrep, mul_assoc, hmul]
      · exact ih _ _ n1 fs1 hn h

theorem remove_small_factors_spec (E : FactorEnv) (fuel : Nat) (n n1 : Int)
    (fs1 : List Int) (hn : 1 ≤ n)
    (h : remove_small_factors E fuel n = some (n1, fs1)) :
    fs1.prod * n1 = n ∧ 1 ≤ n1 := by
  unfold remove_small_factors at h
  split at h
  · cases h
  · rename_i n0 fs0 htwos
    obtain ⟨h1, h2⟩ := remove_twos_spec fuel n [] n0 fs0 hn htwos
    obtain ⟨h3, h4⟩ := small_primes_loop_spec fuel E.PRIMES n0 fs0 n1 fs1 h2 h
    refine ⟨?_, h4⟩
    rw [h3, h1]
    simp

theorem find_factor_spec (E : FactorEnv) (fuel : Nat) :
    ∀ (c : Nat) (n a : Int) (c1 : Nat), 1 ≤ n →
      find_factor E fuel c n = some (a, c1) → 1 ≤ a ∧ a ∣ n ∧ a ≠ 1 ∧ a ≠ n := by
  induction fuel with
  | zero => intro c n a c1 _ h; simp [find_factor] at h
  | succ fuel ih =>
    intro c n a c1 hn h
    simp only [find_factor] at h
    split at h
    · cases h
    · rename_i d hd
      split at h
      · exact ih _ _ _ _ hn h
      · rename_i hd0
        simp only [Option.some.injEq, Prod.mk.injEq] at h
        obtain ⟨h1, _⟩ := h
        subst h1
        obtain ⟨hnn, hnt⟩ := rho_loop_spec n 65536 _ _ 1 2 d hd
        obtain ⟨hdvd, hne1, hnen⟩ := hnt hd0
        have hpos : (0 : Int) < d := lt_of_le_of_ne hnn (Ne.symm hd0)
        exact ⟨hpos, hdvd, hne1, hnen⟩

theorem factorize_loop_spec (E : FactorEnv) (fuel : Nat) :
    ∀ (c : Nat) (n : Int) (fs out : List Int), 1 ≤ n →
      factorize_loop E fuel c n fs = some out → out.prod = fs.prod * n := by
  induction fuel with
  | zero => intro c n fs out _ h; simp [factorize_loop] at h
  | succ fuel ih =>
    intro c n fs out hn h
    simp only [factorize_loop] at h
    split at h
    · split at h
      · injection h with h
        subst h
        simp
      · split at h
        · cases h
        · rename_i a c1 hfind
          obtain ⟨ha, hdvd, _, _⟩ := find_factor_spec E fuel c n a c1 hn hfind
          obtain ⟨hq, hmul⟩ := div_ge_one_of_dvd n a hn ha hdvd
          rw [ih c1 (n / a) (fs ++ [a]) out hq h, List.prod_append, List.prod_singleton,
            mul_assoc, hmul]
    · rename_i hn1
      injection h with h
      subst h
      have : n = 1 := by
        by_contra hne
        exact hn1 hne
      rw [this, mul_one]

end Botan

namespace Botan

theorem remove_twos_returns (fuel : Nat) :
    ∀ (n : Int) (fs : List Int), 1 ≤ n → n < (fuel : Int) →
      ∃ r, remove_twos fuel n fs = some r := by
  induction fuel with
  | zero => intro n fs hn hf; omega
  | succ fuel ih =>
    intro n fs hn hf
    simp only [remove_twos]
    split
    · rename_i heven
      obtain ⟨hhalf, hdouble⟩ := half_of_even n hn heven
      exact ih (n / 2) _ hhalf (by omega)
    · exact ⟨_, rfl⟩

theorem gcd_prime_right (n : Int) (p : Nat) (hp : Nat.Prime p) :
    gcd n (p : Int) = 1 ∨ gcd n (p : Int) = (p : Int) := by
  have hdvd : Int.gcd n (p : Int) ∣ p := by
    have := gcd_dvd_right n (p : Int)
    unfold gcd at this
    exact Int.natCast_dvd_natCast.1 this
  rcases (Nat.dvd_prime hp).1 hdvd with h | h
  · left; unfold gcd; rw [h]; rfl
  · right; unfold gcd; rw [h]

theorem count_occurs_prime_returns (fuel : Nat) (hfuel : 2 ≤ fuel) (n : Int) (p : Nat)
    (hp : Nat.Prime p) : ∃ occurs, count_occurs fuel (gcd n (p : Int)) (p : Int) 0 = some occurs := by
  obtain ⟨f, rfl⟩ : ∃ f, fuel = f + 2 := ⟨fuel - 2, by omega⟩
  rcases gcd_prime_right n p hp with h | h
  · rw [h]; exact ⟨0, by simp [count_occurs]⟩
  · rw [h]
    have hp1 : (p : Int) ≠ 1 := by
      have := hp.one_lt
      omega
    have hp0 : (p : Int) ≠ 0 := by
      have := hp.pos
      omega
    refine ⟨1, ?_⟩
    simp [count_occurs, hp1, Int.ediv_self hp0]

theorem small_primes_loop_returns (fuel : Nat) (hfuel : 2 ≤ fuel) (ps : List Nat)
    (hps : ∀ p ∈ ps, Nat.Prime p) :
    ∀ (n : Int) (fs : List Int), ∃ r, small_primes_loop fuel ps n fs = some r := by
  induction ps with
  | nil => intro n fs; exact ⟨_, rfl⟩
  | cons p rest ih =>
    intro n fs
    have hp : Nat.Prime p := hps p (List.mem_cons_self _ _)
    have ih' := ih (fun q hq => hps q (List.mem_cons_of_mem _ hq))
    simp only [small_primes_loop]
    split
    · exact ⟨_, rfl⟩
    · split
      · obtain ⟨occurs, hocc⟩ := count_occurs_prime_returns fuel hfuel n p hp
        rw [hocc]
        exact ih' _ _
      · exact ih' _ _

theorem remove_small_factors_returns (E : FactorEnv) (hprimes : ∀ p ∈ E.PRIMES, Nat.Prime p)
    (fuel : Nat) (n : Int) (hn : 1 ≤ n) (hfuel : n < (fuel : Int)) :
    ∃ r, remove_small_factors E fuel n = some r := by
  obtain ⟨r, hr⟩ := remove_twos_returns fuel n [] hn hfuel
  unfold remove_small_factors
  rw [hr]
  exact small_primes_loop_returns fuel (by omega) E.PRIMES hprimes _ _

theorem small_primes_loop_one (fuel : Nat) (ps : List Nat) :
    ∀ fs : List Int, small_primes_loop fuel ps 1 fs = some (1, fs) := by
  induction ps with
  | nil => intro fs; rfl
  | cons p rest ih =>
    intro fs
    simp only [small_primes_loop]
    split
    · rfl
    · have hg : gcd 1 (p : Int) = 1 := by
        unfold gcd
        rw [Int.one_gcd]
        rfl
      simp [hg, ih]

theorem factorize_one (E : FactorEnv) (fuel : Nat) (hprime : E.is_prime 1 = false)
    (hfuel : 1 ≤ fuel) : factorize E fuel 1 = some [] := by
  obtain ⟨f, rfl⟩ : ∃ f, fuel = f + 1 := ⟨fuel - 1, by omega⟩
  have h2 : remove_twos (f + 1) 1 [] = some (1, []) := by
    simp [remove_twos]
  simp [factorize, remove_small_factors, h2, small_primes_loop_one, hprime, factorize_loop]

/-- C20: for every `n >= 1`, whenever `factorize(n)` returns, the product of
the returned factors is `n`; for `n = 1` (which the primality test rejects)
it returns the empty list. `remove_small_factors` keeps the product of the
collected factors times the remaining `n` equal to its input, and every
non-zero value that `rho(n)` returns divides `n` and differs from 1 and from
`n`; `rho` always returns. -/
theorem factorize_product :
    (∀ (E : FactorEnv) (fuel : Nat) (n : BigInt) (factors : List BigInt), 1 ≤ n →
      factorize E fuel n = some factors → factors.prod = n) ∧
    (∀ (E : FactorEnv) (fuel : Nat), E.is_prime 1 = false → 1 ≤ fuel →
      factorize E fuel 1 = some []) ∧
    (∀ (E : FactorEnv) (fuel : Nat) (n n1 : BigInt) (fs : List BigInt), 1 ≤ n →
      remove_small_factors E fuel n = some (n1, fs) → fs.prod * n1 = n) ∧
    (∀ (n x0 d : BigInt), rho n x0 = some d → d ≠ 0 → d ∣ n ∧ d ≠ 1 ∧ d ≠ n) ∧
    (∀ (n x0 : BigInt), ∃ d, rho n x0 = some d) := by
  refine ⟨?_, ?_, ?_, ?_, rho_returns⟩
  · intro E fuel n factors hn h
    unfold factorize at h
    split at h
    · cases h
    · rename_i n1 fs hsmall
      obtain ⟨hprod, hpos⟩ := remove_small_factors_spec E fuel n n1 fs hn hsmall
      split at h
      · injection h with h
        subst h
        rw [List.prod_append, List.prod_singleton, hprod]
      · rw [factorize_loop_spec E fuel 0 n1 fs factors hpos h, hprod]
  · intro E fuel hprime hfuel
    exact factorize_one E fuel hprime hfuel
  · intro E fuel n n1 fs hn h
    exact (remove_small_factors_spec E fuel n n1 fs hn h).1
  · intro n x0 d h hd
    exact (rho_loop_spec n 65536 x0 x0 1 2 d h).2 hd

/-- Witness for C20: with the table `3, 5, 7` and the draw 2,
`factorize(25740)` returns `2 2 3 5 3 11 13` (11 is found by `rho`), whose
product is 25740. -/
theorem factorize_product_witness :
    factorize smallEnv 20 25740 = some [2, 2, 3, 5, 3, 11, 13] ∧
    rho 143 2 = some 11 ∧
    ([2, 2, 3, 5, 3, 11, 13] : List BigInt).prod = 25740 :=
  ⟨by decide, by decide,
   factorize_product.1 smallEnv 20 25740 [2, 2, 3, 5, 3, 11, 13] (by decide) (by decide)⟩

end Botan
